import Mathlib

/-!
# Conduit API (Go): slug allocation, password credentials, tokens

A shallow embedding of

* `internal/pkg/slug.go` (`Slugify`),
* the slug-allocation part of `internal/handlers/articleHandler.go`
  (`CreateArticleHandler`),
* `internal/repository/article.go` (`IsSlugExists`, `CreateArticle`),
* `internal/security/password.go` (`GeneratePasswd`, `ComparePasswords`),
* `internal/security/token.go` (`Init`, `GenerateToken`, `DecodeToken`),
* `internal/app/router.go` (the startup checks of `Init`),
* `internal/handlers/middleware.go` (`AuthMiddleware`) with
  `PostgresUserStorage.GetToken`,
* `internal/repository/user.go` and `internal/handlers/userHandlers.go`,
  `profileHandler.go` (register, get-user, login, update, logout, profile),

followed by theorems about them.

Conventions.  A Go `string` that holds valid UTF-8 (every title reaches the
handler through `encoding/json`, which only produces valid UTF-8) is the list
of its runes, `List Char`; the patterns given to `strings.ReplaceAll` are
single ASCII bytes, which never occur inside a multi-byte rune, so replacing
on runes and on bytes agree.  A Go `int` is an `Int`; the only arithmetic on
it is `index++` starting from `1`, and the termination theorem bounds the
final index by the number of stored slugs plus one, far below `2^63`.
-/

namespace Conduit

/-! ## Strings -/

/-- A Go string holding valid UTF-8, as its runes. -/
abbrev GoString := List Char

/-- Go `strings.ReplaceAll(s, old, new)` for a pattern `old` of one ASCII byte:
every occurrence of `old` is replaced by `new`, everything else is kept. -/
def ReplaceAll : GoString → Char → GoString → GoString
  | [], _, _ => []
  | c :: s, old, new => (if c = old then new else [c]) ++ ReplaceAll s old new

/-- Go `unicode.ToLower(r)`: runes up to `unicode.MaxASCII` are handled inline
(`'A'..'Z'` are moved by `'a' - 'A'`, the rest returned as they are); every
other rune is looked up in `unicode.CaseRanges`.  That table belongs to the Go
toolchain, not to this repository: it is the parameter `tbl`. -/
def toLowerRune (tbl : Char → Char) (r : Char) : Char :=
  if r.toNat ≤ 0x7F then
    if 'A'.toNat ≤ r.toNat ∧ r.toNat ≤ 'Z'.toNat then Char.ofNat (r.toNat + ('a'.toNat - 'A'.toNat))
    else r
  else tbl r

/-- Go `strings.ToLower(s)`: every rune is mapped by `unicode.ToLower` (the
ASCII-only fast path of the library computes the same string). -/
def ToLower (tbl : Char → Char) (s : GoString) : GoString :=
  s.map (toLowerRune tbl)

/-- The Latin-1 rows of `unicode.CaseRanges`: `U+00C0..U+00D6` and
`U+00D8..U+00DE` have their lower case `0x20` above.  Used as the table in
concrete examples; on ASCII titles the table is never consulted. -/
def latin1Table (r : Char) : Char :=
  if (0xC0 ≤ r.toNat ∧ r.toNat ≤ 0xD6) ∨ (0xD8 ≤ r.toNat ∧ r.toNat ≤ 0xDE) then
    Char.ofNat (r.toNat + 0x20)
  else r

/-! ## `fmt.Sprintf("%d", index)` -/

/-- The ASCII digit of `d < 10`: `byte('0' + d)`. -/
def digitChar (d : Nat) : Char := Char.ofNat ('0'.toNat + d)

/-- The digit loop of `fmt.(*fmt).fmtInteger` in base 10: while `u >= 10` the
last digit is written in front of the buffer and `u` is divided by ten; the
last remaining digit is written at the end.  The first argument bounds the
number of iterations. -/
def fmtDigits : Nat → Nat → List Char → List Char
  | 0, _, buf => buf
  | fuel + 1, u, buf =>
    if 10 ≤ u then fmtDigits fuel (u / 10) (digitChar (u % 10) :: buf)
    else digitChar u :: buf

/-- Decimal digits of an unsigned value. -/
def fmtUnsigned (u : Nat) : List Char := fmtDigits (u + 1) u []

/-- Go `fmt.Sprintf("%d", i)`: a minus sign for a negative value, then the digits
of its magnitude. -/
def formatInt (i : Int) : GoString :=
  if i < 0 then '-' :: fmtUnsigned i.natAbs else fmtUnsigned i.natAbs

/-! ## `pkg.Slugify` -/

/-- The characters `Slugify` deletes, in the order of its `ReplaceAll` calls. -/
def stripChars : List Char := ['.', ',', '!', '?', ':', ';', '\'', '"']

/-- The title part of `Slugify`: the statements of the function up to the one
that appends the index. -/
def normalizeTitle (tbl : Char → Char) (title : GoString) : GoString :=
  let title := ToLower tbl title
  let title := ReplaceAll title ' ' ['-']
  let title := ReplaceAll title '.' []
  let title := ReplaceAll title ',' []
  let title := ReplaceAll title '!' []
  let title := ReplaceAll title '?' []
  let title := ReplaceAll title ':' []
  let title := ReplaceAll title ';' []
  let title := ReplaceAll title '\'' []
  let title := ReplaceAll title '"' []
  title

/-- Go `pkg.Slugify(title, index)`. -/
def Slugify (tbl : Char → Char) (title : GoString) (index : Int) : GoString :=
  let title := normalizeTitle tbl title
  let title := title ++ ['-'] ++ formatInt index
  title

/-! ## The article store -/

/-- The outcomes of a failed pgx call that the repository can tell apart:
`pgx.ErrNoRows`, a `pgconn.PgError` with code `unique_violation`, and every
other failure (connection lost, timeout, bad query, ...). -/
inductive PgxErr where
  | ErrNoRows
  | UniqueViolation
  | Other
  deriving DecidableEq, Repr

/-- Go `time.Time`, as the nanoseconds counted from the zero time:
`time.Time{}` is `0`, and a `time.Duration` is a difference of two such. -/
abbrev Time := Int

/-- Go `model.DBArticle`. -/
structure DBArticle where
  Slug : GoString
  Title : GoString
  Description : GoString
  Body : GoString
  TagList : List GoString
  CreatedAt : Time
  UpdatedAt : Time
  FavoritesCount : Int
  Author : GoString
  deriving DecidableEq, Repr

/-- The `Article` field of `model.CreateArticleRequest`. -/
structure CreateArticleRequest where
  Title : GoString
  Description : GoString
  Body : GoString
  TagList : List GoString
  deriving DecidableEq, Repr

/-- Go `model.DBArticleResponseWithAuthorUsername` (`Author` is the one field
`Username` of `model.AuthorUsername`). -/
structure DBArticleResponseWithAuthorUsername where
  Slug : GoString
  Title : GoString
  Description : GoString
  Body : GoString
  TagList : List GoString
  CreatedAt : Time
  UpdatedAt : Time
  Favorited : Bool
  FavoritesCount : Int
  Author : GoString
  deriving DecidableEq, Repr

/-- The two statements `PostgresArticleStorage` sends to the pool in the
creation path, as transitions of a database state `σ`:
`selectSlug` is `QueryRow(ctx, "SELECT slug FROM article WHERE slug = $1",
slug).Scan(&dbSlug)` and `insertArticle` is `Exec(ctx, "INSERT INTO article
...", ...)`.  Other writers and failures of the connection live in `σ`. -/
structure ArticleDb (σ : Type) where
  selectSlug : σ → GoString → σ × Except PgxErr GoString
  insertArticle : σ → DBArticle → σ × Option PgxErr

/-- Go `PostgresArticleStorage.IsSlugExists`: when `Scan` fails the answer is
`!(errors.Is(err, pgx.ErrNoRows))`, otherwise `true`. -/
def IsSlugExists {σ : Type} (db : ArticleDb σ) (s : σ) (slug : GoString) : σ × Bool :=
  match db.selectSlug s slug with
  | (s', .error err) => (s', !(decide (err = PgxErr.ErrNoRows)))
  | (s', .ok _) => (s', true)

/-- Go `PostgresArticleStorage.CreateArticle`: the error of `Exec`, wrapped with
the operation name (the wrapping keeps the cause, which is what is recorded
here), or `nil`. -/
def CreateArticle {σ : Type} (db : ArticleDb σ) (s : σ) (dbArticle : DBArticle) :
    σ × Option PgxErr :=
  match db.insertArticle s dbArticle with
  | (s', some err) => (s', some err)
  | (s', none) => (s', none)

/-! ## `CreateArticleHandler` -/

/-- What the handler writes to the `http.ResponseWriter`: `http.Error(w, msg,
status)`, or status `201` with the encoded article. -/
inductive Response where
  | error (status : Nat) (msg : String)
  | created (status : Nat) (article : DBArticleResponseWithAuthorUsername)
  deriving DecidableEq, Repr

def StatusCreated : Nat := 201
def StatusUnauthorized : Nat := 401
def StatusUnprocessableEntity : Nat := 422

/-- The loop `for shouldFindSlug { ... }` of `CreateArticleHandler`, entered
with the current `index` and `slug`.  One unit of the first argument is spent
per iteration (one call of `IsSlugExists`); `none` means the iterations
allowed were not enough.  The result is the database state, the index and the
slug at loop exit. -/
def slugLoop {σ : Type} (tbl : Char → Char) (db : ArticleDb σ) (title : GoString) :
    Nat → σ → Int → GoString → Option (σ × Int × GoString)
  | 0, _, _, _ => none
  | fuel + 1, s, index, slug =>
    let (s', shouldFindSlug) := IsSlugExists db s slug
    if shouldFindSlug then
      slugLoop tbl db title fuel s' (index + 1) (Slugify tbl title (index + 1))
    else
      some (s', index, slug)

/-- The `model.DBArticle` literal the handler builds after the loop. -/
def newArticle (slug : GoString) (req : CreateArticleRequest) (username : GoString) :
    DBArticle :=
  { Slug := slug, Title := req.Title, Description := req.Description, Body := req.Body,
    TagList := req.TagList, CreatedAt := 0, UpdatedAt := 0, FavoritesCount := 0,
    Author := username }

/-- The `model.DBArticleResponseWithAuthorUsername` literal the handler builds
after a successful insert. -/
def newResponse (slug : GoString) (article : DBArticle) (username : GoString) (now : Time) :
    DBArticleResponseWithAuthorUsername :=
  { Slug := slug, Title := article.Title, Description := article.Description,
    Body := article.Body, TagList := article.TagList, CreatedAt := now, UpdatedAt := now,
    Favorited := false, FavoritesCount := 0, Author := username }

/-- Go `CreateArticleHandler`, for a request that came through the
authentication middleware (the context holds `uid`).  `user` is the outcome of
`h.UserRepository.GetUserForApi(uid)` (the username, or `none` for an error),
`request` the outcome of decoding the body, `now` the value of `time.Now()`.
The result is the database state after the request and the response; `none`
means the slug loop did not finish within `fuel` iterations. -/
def CreateArticleHandler {σ : Type} (tbl : Char → Char) (db : ArticleDb σ) (fuel : Nat)
    (s : σ) (user : Option GoString) (request : Option CreateArticleRequest) (now : Time) :
    Option (σ × Response) :=
  match user with
  | none => some (s, Response.error StatusUnauthorized "User not found")
  | some username =>
    match request with
    | none => some (s, Response.error StatusUnprocessableEntity "Failed to decode request body")
    | some req =>
      let index : Int := 1
      let slug := Slugify tbl req.Title index
      match slugLoop tbl db req.Title fuel s index slug with
      | none => none
      | some (s1, _, slug) =>
        let article := newArticle slug req username
        match CreateArticle db s1 article with
        | (s2, some _) =>
          some (s2, Response.error StatusUnprocessableEntity "Failed to create article")
        | (s2, none) =>
          some (s2, Response.created StatusCreated (newResponse slug article username now))

/-! ## A database for concrete runs -/

/-- A database state for concrete runs: the rows of table `article`, and the
failures that the next calls will meet (`some e`: the call fails with `e`
before reaching the table; `none` or no entry: the call reaches the table). -/
structure MemDb where
  rows : List DBArticle
  faults : List (Option PgxErr)
  deriving DecidableEq, Repr

/-- Modelled from the spec: the table `article(slug UNIQUE, ...)`; the schema
is not part of the sources.  A `SELECT` by slug finds a row or reports no rows;
an `INSERT` of a slug already present is a uniqueness violation, any other
insert adds the row. -/
def memDb : ArticleDb MemDb where
  selectSlug s slug :=
    match s.faults with
    | some e :: rest => ({ s with faults := rest }, .error e)
    | _ =>
      ({ s with faults := s.faults.tail },
        if s.rows.any (fun r => decide (r.Slug = slug)) then .ok slug
        else .error PgxErr.ErrNoRows)
  insertArticle s a :=
    match s.faults with
    | some e :: rest => ({ s with faults := rest }, some e)
    | _ =>
      if s.rows.any (fun r => decide (r.Slug = a.Slug)) then
        ({ s with faults := s.faults.tail }, some PgxErr.UniqueViolation)
      else
        ({ rows := s.rows ++ [a], faults := s.faults.tail }, none)

/-- A database that only answers the existence query, by membership in a fixed
set of slugs, and never fails. -/
def setDb (E : Finset GoString) : ArticleDb Unit where
  selectSlug _ slug := ((), if slug ∈ E then .ok slug else .error PgxErr.ErrNoRows)
  insertArticle _ _ := ((), none)

/-! ## `encoding/base64`: `RawStdEncoding` -/

/-- A Go `byte`. -/
abbrev Byte := Fin 256

/-- The conversion `byte(v)` of an unsigned value: its low eight bits. -/
def toByte (v : Nat) : Byte := ⟨v % 256, Nat.mod_lt v (by decide)⟩

/-- The alphabet `encodeStd` of the standard encoding. -/
def encodeStd : List Char :=
  "ABCDEFGHIJKLMNOPQRSTUVWXYZabcdefghijklmnopqrstuvwxyz0123456789+/".toList

/-- The table lookup `enc.encode[v]`. -/
def encodeChar (v : Nat) : Char := encodeStd.getD v 'A'

/-- The table lookup `enc.decodeMap[c]`: the position of `c` in the alphabet,
`none` where the table holds `0xff`. -/
def decodeMap (c : Char) : Option Nat :=
  if encodeStd.indexOf c < 64 then some (encodeStd.indexOf c) else none

/-- Go `RawStdEncoding.EncodeToString`: three bytes become four characters; one
or two remaining bytes become two or three characters; no padding is
written. -/
def EncodeToString : List Byte → GoString
  | a :: b :: c :: rest =>
    let val := ((a.val <<< 16) ||| (b.val <<< 8)) ||| c.val
    encodeChar ((val >>> 18) &&& 0x3F) :: encodeChar ((val >>> 12) &&& 0x3F) ::
      encodeChar ((val >>> 6) &&& 0x3F) :: encodeChar (val &&& 0x3F) :: EncodeToString rest
  | [a, b] =>
    let val := (a.val <<< 16) ||| (b.val <<< 8)
    [encodeChar ((val >>> 18) &&& 0x3F), encodeChar ((val >>> 12) &&& 0x3F),
      encodeChar ((val >>> 6) &&& 0x3F)]
  | [a] =>
    let val := a.val <<< 16
    [encodeChar ((val >>> 18) &&& 0x3F), encodeChar ((val >>> 12) &&& 0x3F)]
  | [] => []

/-- The value `decodeQuantum` assembles from four six-bit digits. -/
def quantumVal (d0 d1 d2 d3 : Nat) : Nat :=
  (((d0 <<< 18) ||| (d1 <<< 12)) ||| (d2 <<< 6)) ||| d3

/-- Go `RawStdEncoding.Decode`, character by character.  `dbuf` holds the digits
of the quantum being read and `out` the bytes of the quanta already complete.
`\n` and `\r` are skipped; any other character outside the alphabet stops the
decoding with `CorruptInputError`, as does an input that ends one digit into a
quantum; the bytes returned are then those of the complete quanta before it.
An input that ends two or three digits into a quantum yields one or two more
bytes (the encoding is not strict: unused low bits are ignored).  The second
component of the result says whether the error is non-nil. -/
def decodeLoop : List Char → List Nat → List Byte → List Byte × Bool
  | [], dbuf, out =>
    match dbuf with
    | [] => (out, false)
    | [d0, d1] => (out ++ [toByte (quantumVal d0 d1 0 0 >>> 16)], false)
    | [d0, d1, d2] =>
      (out ++ [toByte (quantumVal d0 d1 d2 0 >>> 16), toByte (quantumVal d0 d1 d2 0 >>> 8)],
        false)
    | _ => (out, true)
  | c :: src, dbuf, out =>
    match decodeMap c with
    | some d =>
      match dbuf with
      | [d0, d1, d2] =>
        decodeLoop src []
          (out ++ [toByte (quantumVal d0 d1 d2 d >>> 16), toByte (quantumVal d0 d1 d2 d >>> 8),
            toByte (quantumVal d0 d1 d2 d)])
      | _ => decodeLoop src (dbuf ++ [d]) out
    | none =>
      if c = '\n' ∨ c = '\r' then decodeLoop src dbuf out else (out, true)

/-- Go `RawStdEncoding.DecodeString`: the decoded bytes (up to the point of an
error) and whether the error is non-nil. -/
def DecodeString (s : GoString) : List Byte × Bool := decodeLoop s [] []

/-! ## `security` : passwords -/

/-- Go `security.PasswordObj`. -/
structure PasswordObj where
  Hash : GoString
  Salt : GoString
  deriving DecidableEq, Repr

/-- The error `crypto/rand.Read` can return. -/
inductive RandError where
  | readFailed
  deriving DecidableEq, Repr

/-- The conversion `[]byte(s)`: the UTF-8 bytes of the string. -/
def toBytes (s : GoString) : List Byte :=
  s.foldr (fun c acc => (String.utf8EncodeChar c).map (fun b => toByte b.toNat) ++ acc) []

/-- Go `generateSalt` of this repository: a buffer of 16 zero bytes is handed to `rand.Read`; `rand`
is what the random source does with it, an error or the bytes it writes into
the buffer. -/
def generateSalt (rand : Except RandError (List Byte)) : Except RandError (List Byte) :=
  let salt : List Byte := List.replicate 16 0
  match rand with
  | .error err => .error err
  | .ok written => .ok ((written ++ salt.drop written.length).take 16)

/-- Go `security.GeneratePasswd`.  `IDKey` is `argon2.IDKey(password, salt, time, memory,
threads, keyLen)` of `golang.org/x/crypto`, a function of its arguments. -/
def GeneratePasswd (IDKey : List Byte → List Byte → Nat → Nat → Nat → Nat → List Byte)
    (rand : Except RandError (List Byte)) (pass : GoString) : Except RandError PasswordObj :=
  match generateSalt rand with
  | .error err => .error err
  | .ok salt =>
    let key := IDKey (toBytes pass) salt 1 (64 * 1024) 4 32
    let base64Hash := EncodeToString key
    let base64Salt := EncodeToString salt
    .ok { Hash := base64Hash, Salt := base64Salt }

/-- Go `security.ComparePasswords`: the error of `DecodeString` is dropped. -/
def ComparePasswords (IDKey : List Byte → List Byte → Nat → Nat → Nat → Nat → List Byte)
    (passwd : GoString) (passwdDB : GoString) (salt : GoString) : Bool :=
  let saltByte := (DecodeString salt).1
  let userPassHash := IDKey (toBytes passwd) saltByte 1 (64 * 1024) 4 32
  let base64Hash := EncodeToString userPassHash
  if base64Hash ≠ passwdDB then false else true

/-- A stand-in key-derivation function for concrete runs: the first `keyLen`
bytes of password, salt and zero filling.  Any function can take its place in
the theorems. -/
def sampleKDF (password salt : List Byte) (_time _memory _threads keyLen : Nat) : List Byte :=
  (password ++ salt ++ List.replicate keyLen 0).take keyLen

/-! ## `security` : tokens -/

/-- A Go string as its bytes, for strings that need not hold UTF-8 (values of
environment variables and of HTTP headers, token strings). -/
abbrev ByteString := List Byte

/-- The bytes of a string literal. -/
def bytesOf (s : String) : ByteString := toBytes s.toList

/-- Go `paseto.JSONToken` of `github.com/o1egl/paseto`: the registered claims
and the map of custom claims. -/
structure JSONToken where
  Audience : GoString
  Issuer : GoString
  Jti : GoString
  Subject : GoString
  Expiration : Time
  IssuedAt : Time
  NotBefore : Time
  claims : List (GoString × GoString)
  deriving DecidableEq, Repr

/-- Go `(*JSONToken).Set(key, value)`: `t.claims[key] = value`. -/
def JSONToken.Set (t : JSONToken) (key value : GoString) : JSONToken :=
  { t with claims := (key, value) :: t.claims.filter (fun kv => decide (kv.1 ≠ key)) }

/-- Go `(*JSONToken).Get(key)`: `t.claims[key]`, the empty string for a key
that is not in the map. -/
def JSONToken.Get (t : JSONToken) (key : GoString) : GoString :=
  match t.claims.lookup key with
  | some value => value
  | none => []

/-- The errors of the token library that the code passes on. -/
inductive PasetoErr where
  | IncorrectTokenFormat
  | IncorrectTokenHeader
  | InvalidTokenAuth
  | Other
  deriving DecidableEq, Repr

/-- The protocol object `paseto.NewV2()` of the token library, which is not
part of this repository: `Encrypt(key, payload, footer)` (with the nonce it
draws) and `Decrypt(token, key, &payload, &footer)`.  On an error `Encrypt`
returns the empty string beside it. -/
structure PasetoV2 where
  Encrypt : List Byte → JSONToken → ByteString → Except PasetoErr ByteString
  Decrypt : ByteString → List Byte → Except PasetoErr (JSONToken × ByteString)

/-- The package variable `PasetoFooter = " "`. -/
def PasetoFooter : ByteString := [toByte ' '.toNat]

/-- The error value of `security.Init`. -/
inductive InitError where
  | keyLength
  deriving DecidableEq, Repr

/-- Go `security.Init(key)`, on the package variable `pasetoSymmetricKey`
(first argument: its value before the call).  The result is the value of the
variable after the call and the returned error. -/
def security.Init (pasetoSymmetricKey : List Byte) (key : ByteString) :
    List Byte × Option InitError :=
  if key.length ≠ 32 then (pasetoSymmetricKey, some InitError.keyLength)
  else (key, none)

/-- The table `hextable` of `encoding/hex`. -/
def hextable : List Char := "0123456789abcdef".toList

/-- Go `hex.EncodeToString`: two digits per byte, high four bits first. -/
def hexEncodeToString (src : List Byte) : GoString :=
  src.foldr (fun v acc => hextable.getD (v.val >>> 4) '0' :: hextable.getD (v.val &&& 0x0f) '0' :: acc)
    []

/-- Go `security.GenerateJTI`: a buffer of 16 zero bytes is handed to
`rand.Read`, whose error is not looked at, and printed in hexadecimal. -/
def GenerateJTI (rand : Except RandError (List Byte)) : GoString :=
  let bytes : List Byte := List.replicate 16 0
  match rand with
  | .error _ => hexEncodeToString bytes
  | .ok written => hexEncodeToString ((written ++ bytes.drop written.length).take 16)

/-- Go `time.Second`: the nanoseconds of one second. -/
def Second : Int := 1000000000

/-- Go `time.Hour`. -/
def Hour : Int := 3600 * Second

/-- What `Format(time.RFC3339)` followed by parsing keeps of an instant: the
layout has no fraction of a second, so the instant is cut down to its whole
second. -/
def wholeSeconds (t : Time) : Time := t / Second * Second

/-- The `paseto.JSONToken` that `GenerateToken` builds before encrypting:
the struct literal followed by `jsonToken.Set("uid", userUID)`; `now` is the
value of `time.Now()`. -/
def mintedToken (now : Time) (rand : Except RandError (List Byte)) (userUID : GoString) :
    JSONToken :=
  let exp := now + Hour * 24 * 7
  let nbt := now
  let jsonToken : JSONToken :=
    { Audience := "test".toList, Issuer := "test_service".toList, Jti := GenerateJTI rand,
      IssuedAt := now, NotBefore := nbt, Expiration := exp, Subject := "test_subject".toList,
      claims := [] }
  jsonToken.Set "uid".toList userUID

/-- Go `security.GenerateToken(userUID)`: the error of `Encrypt` is dropped and
the string beside it returned. -/
def GenerateToken (v2 : PasetoV2) (pasetoSymmetricKey : List Byte) (now : Time)
    (rand : Except RandError (List Byte)) (userUID : GoString) : ByteString :=
  match v2.Encrypt pasetoSymmetricKey (mintedToken now rand userUID) PasetoFooter with
  | .ok encrypt => encrypt
  | .error _ => []

/-- The errors `DecodeToken` returns: the one of `Decrypt`, or
`errors.New("Token expired")`. -/
inductive DecodeErr where
  | crypto (err : PasetoErr)
  | expired
  deriving DecidableEq, Repr

/-- Go `security.DecodeToken(token)`; `now` is the value of `time.Now()`. -/
def DecodeToken (v2 : PasetoV2) (pasetoSymmetricKey : List Byte) (now : Time)
    (token : ByteString) : GoString × Option DecodeErr :=
  match v2.Decrypt token pasetoSymmetricKey with
  | .error err => ([], some (DecodeErr.crypto err))
  | .ok (newJsonToken, _) =>
    if newJsonToken.Expiration < now then ([], some DecodeErr.expired)
    else (newJsonToken.Get "uid".toList, none)

/-- What is left of a payload once the token library has written it into a
token and read it back: `JSONToken.MarshalJSON` of `github.com/o1egl/paseto`
writes `exp`, `iat` and `nbf` with `time.RFC3339`, so the three times come
back cut to whole seconds; the other claims come back as they were. -/
def carried (payload : JSONToken) : JSONToken :=
  { payload with
    Expiration := wholeSeconds payload.Expiration,
    IssuedAt := wholeSeconds payload.IssuedAt,
    NotBefore := wholeSeconds payload.NotBefore }

/-! ## `app.Init` -/

/-- How `app.Init` ends: with a panic, or by returning the router. -/
inductive InitOutcome where
  | panic (msg : String)
  | handler
  deriving DecidableEq, Repr

/-- Go `app.Init()`.  `JWT_SECRET` and `DB_URL` are the results of
`os.Getenv` (empty for a variable that is not set), `poolNew` says whether
`pgxpool.New` returns an error for a connection string.  The error of
`security.Init` is assigned to `err` and overwritten by the next assignment
without being read.  The result is the value of `pasetoSymmetricKey` after
the call and the outcome. -/
def app.Init (pasetoSymmetricKey : List Byte) (JWT_SECRET DB_URL : ByteString)
    (poolNew : ByteString → Option String) : List Byte × InitOutcome :=
  let getEnv_db := DB_URL
  let symmetrical_token := JWT_SECRET
  if symmetrical_token = [] then
    (pasetoSymmetricKey, InitOutcome.panic "JWT_SECRET is not set")
  else
    let (key', _) := security.Init pasetoSymmetricKey symmetrical_token
    if getEnv_db = [] then (key', InitOutcome.panic "DB_URL is not set")
    else
      match poolNew getEnv_db with
      | some err => (key', InitOutcome.panic err)
      | none => (key', InitOutcome.handler)

/-! ## `AuthMiddleware` -/

/-- Go `model.ErrorJson`. -/
structure ErrorJson where
  Body : List String
  deriving DecidableEq, Repr

/-- Go `model.NewError(args...)`. -/
def NewError (args : List String) : ErrorJson := { Body := args }

/-- What `HandleError` writes: the content type, the status and the encoded
body. -/
structure ErrorResponse where
  contentType : String
  status : Nat
  body : ErrorJson
  deriving DecidableEq, Repr

/-- Go `HandleError(w, errMsg, statusCode)`. -/
def HandleError (errMsg : String) (statusCode : Nat) : ErrorResponse :=
  { contentType := "application/json", status := statusCode, body := NewError [errMsg] }

/-- Go `model.UserAuthToken`. -/
structure UserAuthToken where
  ID : GoString
  Token : ByteString
  CreatedAt : Time
  EndDate : Time
  UID : GoString
  deriving DecidableEq, Repr

/-- The outcomes of `SELECT * FROM tokens WHERE token = $1` as `GetToken`
reads it: the query fails, there is no row, the row cannot be scanned, or the
first row. -/
inductive TokenQuery where
  | queryFailed
  | noRow
  | scanFailed
  | row (tokenDB : UserAuthToken)
  deriving DecidableEq, Repr

/-- The errors of `PostgresUserStorage.GetToken`. -/
inductive GetTokenErr where
  | tokenNotProvided
  | queryFailed
  | scanFailed
  | ErrTokenIsNotFound
  deriving DecidableEq, Repr

/-- Go `PostgresUserStorage.GetToken(token)`; `query` is what the database
answers. -/
def GetToken (query : ByteString → TokenQuery) (token : ByteString) :
    Except GetTokenErr UserAuthToken :=
  if token = [] then .error GetTokenErr.tokenNotProvided
  else
    match query token with
    | .queryFailed => .error GetTokenErr.queryFailed
    | .row tokenDB => .ok tokenDB
    | .scanFailed => .error GetTokenErr.scanFailed
    | .noRow => .error GetTokenErr.ErrTokenIsNotFound

/-- A call the middleware makes to the token engine or to the session
store, with the token string it passes. -/
inductive AuthCall where
  | DecodeToken (tokenString : ByteString)
  | GetToken (tokenString : ByteString)
  deriving DecidableEq, Repr

/-- How the function returned by `AuthMiddleware` ends: `HandleError` has
written a response, `next.ServeHTTP` is called with `uid` in the context, or
the slice expression `authHeader[6:]` panics (`slice bounds out of range`). -/
inductive AuthResult where
  | rejected (response : ErrorResponse)
  | next (uid : GoString)
  | panic
  deriving DecidableEq, Repr

/-- The function returned by Go `AuthMiddleware(next)`, on the value
`authHeader` of `request.Header.Get("Authorization")` (empty when the header
is absent).  `now1` is the clock reading inside `DecodeToken`, `now2` the one
of the check of `EndDate`.  The result is the list of calls made to
`security.DecodeToken` and `GetToken`, in order, and how the function ends.
A slice expression `s[6:]` panics when `len(s) < 6`. -/
def AuthMiddleware (v2 : PasetoV2) (pasetoSymmetricKey : List Byte)
    (query : ByteString → TokenQuery) (now1 now2 : Time) (authHeader : ByteString) :
    List AuthCall × AuthResult :=
  if authHeader = [] then
    ([], AuthResult.rejected
      (HandleError "Authorization header is required" StatusUnauthorized))
  else if authHeader.length < 6 then ([], AuthResult.panic)
  else
    let tokenString := authHeader.drop 6
    match DecodeToken v2 pasetoSymmetricKey now1 tokenString with
    | (_, some _) =>
      ([AuthCall.DecodeToken tokenString],
        AuthResult.rejected (HandleError "Invalid or expired token" StatusUnauthorized))
    | (uid, none) =>
      match GetToken query tokenString with
      | .error _ =>
        ([AuthCall.DecodeToken tokenString, AuthCall.GetToken tokenString],
          AuthResult.rejected (HandleError "Failed to validate token" StatusUnauthorized))
      | .ok token =>
        if token.UID ≠ uid ∨ ¬ (now2 < token.EndDate) then
          ([AuthCall.DecodeToken tokenString, AuthCall.GetToken tokenString],
            AuthResult.rejected
              (HandleError "Invalid or expired token" StatusUnauthorized))
        else
          ([AuthCall.DecodeToken tokenString, AuthCall.GetToken tokenString],
            AuthResult.next token.UID)

/-- A token scheme for concrete runs that knows one token: `Encrypt` succeeds
under a key of 32 bytes and returns `token`, and `Decrypt` of `token` under
`key` returns `payload` with the footer of one space; everything else is an
error. -/
def sampleV2 (key : List Byte) (token : ByteString) (payload : JSONToken) : PasetoV2 where
  Encrypt k _ _ := if k.length = 32 then .ok token else .error PasetoErr.Other
  Decrypt t k :=
    if t = token ∧ k = key then .ok (payload, PasetoFooter)
    else .error PasetoErr.InvalidTokenAuth

/-- The key of 32 bytes of the concrete runs. -/
def sampleKey : List Byte := bytesOf "0123456789abcdef0123456789abcdef"

/-- The token scheme of the concrete runs: it knows the token `abc`, whose
payload was minted for the user `u1` at time 1000. -/
def sampleScheme : PasetoV2 :=
  sampleV2 sampleKey (bytesOf "abc")
    (mintedToken 1000 (Except.error RandError.readFailed) "u1".toList)

/-- The session table of the concrete runs: one record, for the token `abc`
of the user `u1`, ending at time 605800. -/
def sampleQuery (token : ByteString) : TokenQuery :=
  if token = bytesOf "abc" then
    TokenQuery.row
      { ID := "1".toList, Token := bytesOf "abc", CreatedAt := 1000, EndDate := 605800,
        UID := "u1".toList }
  else TokenQuery.noRow

/-! ## The user store -/

/-- Go `model.UserTableDB`. -/
structure UserTableDB where
  ID : GoString
  Username : GoString
  Email : GoString
  PasswordHash : GoString
  PasswordSalt : GoString
  Bio : GoString
  Image : GoString
  CreatedAt : Time
  UpdatedAt : Time
  deriving DecidableEq, Repr

/-- Go `model.User`. -/
structure User where
  ID : GoString
  Username : GoString
  Email : GoString
  Bio : GoString
  Image : GoString
  CreatedAt : Time
  UpdatedAt : Time
  deriving DecidableEq, Repr

/-- Go `model.UserResponse`. -/
structure UserResponse where
  Id : GoString
  Email : GoString
  Username : GoString
  Bio : GoString
  Image : GoString
  CreatedAt : Time
  UpdatedAt : Time
  Token : ByteString
  deriving DecidableEq, Repr

/-- Go `model.Profile`. -/
structure Profile where
  Id : GoString
  Username : GoString
  Bio : GoString
  Image : GoString
  Following : Bool
  CreatedAt : Time
  UpdatedAt : Time
  deriving DecidableEq, Repr

/-- The outcomes of a `Query` for one user followed by `Next` and `Scan`. -/
inductive UserQuery where
  | queryFailed
  | noRow
  | scanFailed
  | row (userDB : UserTableDB)
  deriving DecidableEq, Repr

/-- The error of an `Exec`: a `pgconn.PgError` with code `unique_violation`
and its constraint name, or anything else. -/
inductive ExecErr where
  | uniqueViolation (constraintName : String)
  | other
  deriving DecidableEq, Repr

/-- The statements `PostgresUserStorage` sends to the pool, on a database
state `σ`: a read answers from the state, an `Exec` returns the next state
and the number of rows affected or an error. -/
structure UserDb (σ : Type) where
  selectUserByUsername : σ → GoString → UserQuery
  selectUserByEmail : σ → GoString → UserQuery
  selectUserById : σ → GoString → Except PgxErr UserTableDB
  insertUser : σ → UserTableDB → σ × Except ExecErr Nat
  updateUser : σ → UserTableDB → Time → σ × Except ExecErr Nat
  insertToken : σ → ByteString → GoString → σ × Except ExecErr Nat
  selectToken : σ → ByteString → TokenQuery
  deleteToken : σ → ByteString → σ × Except ExecErr Nat
  selectTokenByUID : σ → GoString → Except PgxErr UserAuthToken
  selectFollow : σ → GoString → GoString → Except PgxErr Bool

/-- The error values the repository returns: the package variables of
`repository/errors.go`, and `other` for an error made on the spot with
`errors.New` or `errors.Wrap` (with its message). -/
inductive RepoErr where
  | ErrUserNotFound
  | ErrUsernameAlreadyExists
  | ErrEmailAlreadyExists
  | ErrTokenIsNotFound
  | ErrNoResult
  | other (msg : String)
  deriving DecidableEq, Repr

/-- Go `PostgresUserStorage.GetUserForAuth(email, username)`. -/
def GetUserForAuth {σ : Type} (db : UserDb σ) (s : σ) (email username : GoString) :
    Except RepoErr UserTableDB :=
  if email = [] ∧ username = [] then .error (RepoErr.other "email or username not provided")
  else
    match (if email = [] then db.selectUserByUsername s username
           else db.selectUserByEmail s email) with
    | .queryFailed => .error (RepoErr.other "failed to query user")
    | .row userDB => .ok userDB
    | .scanFailed => .error (RepoErr.other "failed to scan user data")
    | .noRow => .error RepoErr.ErrUserNotFound

/-- Go `PostgresUserStorage.GetUserForApi(uid)`. -/
def GetUserForApi {σ : Type} (db : UserDb σ) (s : σ) (uid : GoString) : Except RepoErr User :=
  if uid = [] then .error (RepoErr.other "user ID not provided")
  else
    match db.selectUserById s uid with
    | .error err =>
      if err = PgxErr.ErrNoRows then .error RepoErr.ErrUserNotFound
      else .error (RepoErr.other "failed to scan user data")
    | .ok userDB =>
      .ok { ID := userDB.ID, Username := userDB.Username, Email := userDB.Email,
            Bio := userDB.Bio, Image := userDB.Image, CreatedAt := userDB.CreatedAt,
            UpdatedAt := userDB.UpdatedAt }

/-- Go `PostgresUserStorage.GetUserForUpdate(id)`. -/
def GetUserForUpdate {σ : Type} (db : UserDb σ) (s : σ) (id : GoString) :
    Except RepoErr UserTableDB :=
  if id = [] then .error (RepoErr.other "user ID not provided")
  else
    match db.selectUserById s id with
    | .error err =>
      if err = PgxErr.ErrNoRows then .error RepoErr.ErrUserNotFound
      else .error (RepoErr.other "failed to scan user data")
    | .ok userDB => .ok userDB

/-- How `AddUser` and `UpdateUser` turn the error of `Exec` into theirs. -/
def execError (err : ExecErr) (msg : String) : RepoErr :=
  match err with
  | .uniqueViolation constraintName =>
    if constraintName = "users_email_key" then RepoErr.ErrEmailAlreadyExists
    else if constraintName = "users_username_key" then RepoErr.ErrUsernameAlreadyExists
    else RepoErr.other "unique constraint violation"
  | .other => RepoErr.other msg

/-- Go `PostgresUserStorage.AddUser(u)`. -/
def AddUser {σ : Type} (db : UserDb σ) (s : σ) (u : UserTableDB) : σ × Option RepoErr :=
  match db.insertUser s u with
  | (s', .error err) => (s', some (execError err "failed to execute query"))
  | (s', .ok _) => (s', none)

/-- Go `PostgresUserStorage.UpdateUser(u)`; `now` is the `time.Now()` it
passes as `updated_at`. -/
def UpdateUser {σ : Type} (db : UserDb σ) (s : σ) (u : UserTableDB) (now : Time) :
    σ × Option RepoErr :=
  match db.updateUser s u now with
  | (s', .error err) => (s', some (execError err "failed to update user"))
  | (s', .ok rowsAffected) =>
    if rowsAffected = 0 then (s', some RepoErr.ErrUserNotFound) else (s', none)

/-- Go `PostgresUserStorage.RegisterUser(username, email, password)`. -/
def RegisterUser {σ : Type} (db : UserDb σ)
    (IDKey : List Byte → List Byte → Nat → Nat → Nat → Nat → List Byte)
    (rand : Except RandError (List Byte)) (now : Time) (s : σ)
    (username email password : GoString) : σ × Option RepoErr :=
  match GeneratePasswd IDKey rand password with
  | .error _ => (s, some (RepoErr.other "failed to generate password"))
  | .ok passwd =>
    let user : UserTableDB :=
      { ID := [], Username := username, Email := email, PasswordHash := passwd.Hash,
        PasswordSalt := passwd.Salt, Bio := [], Image := [], CreatedAt := now,
        UpdatedAt := now }
    match AddUser db s user with
    | (s', some _) => (s', some (RepoErr.other "failed to add user"))
    | (s', none) => (s', none)

/-- Go `PostgresUserStorage.AddToken(token, uid)`. -/
def AddToken {σ : Type} (db : UserDb σ) (s : σ) (token : ByteString) (uid : GoString) :
    σ × Option RepoErr :=
  if token = [] ∨ uid = [] then (s, some (RepoErr.other "token or user ID not provided"))
  else
    match db.insertToken s token uid with
    | (s', .error _) => (s', some (RepoErr.other "failed to add token"))
    | (s', .ok rowsAffected) =>
      if rowsAffected = 0 then (s', some (RepoErr.other "token not added")) else (s', none)

/-- Go `PostgresUserStorage.DeleteToken(token)`. -/
def DeleteToken {σ : Type} (db : UserDb σ) (s : σ) (token : ByteString) : σ × Option RepoErr :=
  if token = [] then (s, some (RepoErr.other "token not provided"))
  else
    match db.deleteToken s token with
    | (s', .error _) => (s', some (RepoErr.other "failed to delete token"))
    | (s', .ok rowsAffected) =>
      if rowsAffected = 0 then (s', some RepoErr.ErrTokenIsNotFound) else (s', none)

/-- Go `PostgresUserStorage.FindTokenByUID(uid)`. -/
def FindTokenByUID {σ : Type} (db : UserDb σ) (s : σ) (uid : GoString) :
    Except RepoErr UserAuthToken :=
  if uid = [] then .error (RepoErr.other "user ID not provided")
  else
    match db.selectTokenByUID s uid with
    | .error err =>
      if err = PgxErr.ErrNoRows then .error RepoErr.ErrNoResult
      else .error (RepoErr.other "failed to scan token data")
    | .ok tokenDB => .ok tokenDB

/-- Go `PostgresUserStorage.CheckFollow(followerId, followedId)`. -/
def CheckFollow {σ : Type} (db : UserDb σ) (s : σ) (followerId followedId : GoString) :
    Except RepoErr Bool :=
  if followerId = [] ∨ followedId = [] then
    .error (RepoErr.other "follower ID or followed ID not provided")
  else
    match db.selectFollow s followerId followedId with
    | .error _ => .error (RepoErr.other "failed to check follow status")
    | .ok followed => .ok followed

/-! ## The user handlers -/

def StatusOK : Nat := 200
def StatusBadRequest : Nat := 400
def StatusNotFound : Nat := 404
def StatusInternalServerError : Nat := 500

/-- What a user handler writes: `HandleError`, `http.Error`, an encoded
`model.UserResponseJSON` or `model.ProfileResponse` with its status, or a
status alone. -/
inductive HandlerResponse where
  | error (response : ErrorResponse)
  | httpError (status : Nat) (msg : String)
  | user (status : Nat) (body : UserResponse)
  | profile (status : Nat) (body : Profile)
  | status (code : Nat)
  deriving DecidableEq, Repr

/-- Go `errors.Is(err, errors.New("no result"))` as written in the handlers:
the target is an error value created at the call, identical to no error
returned before it (the package variable `repository.ErrNoResult` is another
value), without an `Is` method and not in any `Unwrap` chain; the answer is
`false` for every `err`. -/
def isNewNoResult (_err : Option RepoErr) : Bool := false

/-- The zero value `model.UserAuthToken{}` a repository call returns beside
an error. -/
def zeroToken : UserAuthToken :=
  { ID := [], Token := [], CreatedAt := 0, EndDate := 0, UID := [] }

/-- The `model.UserResponse` literal of the register, login and update
handlers, built from the user record and the token string. -/
def userResponse (user : UserTableDB) (token : ByteString) : UserResponse :=
  { Id := user.ID, Email := user.Email, Username := user.Username, Bio := user.Bio,
    Image := user.Image, CreatedAt := user.CreatedAt, UpdatedAt := user.UpdatedAt,
    Token := token }

/-- The body of a registration request (`RequestUser.User`). -/
structure RequestUser where
  Username : GoString
  Email : GoString
  Password : GoString
  deriving DecidableEq, Repr

/-- Go `UserRegisterHandler`.  `body` is the outcome of decoding the request,
`validate` the outcome of `h.V.Struct` (the message of the validation error),
`randSalt` and `randJti` what the random source does for the salt and for the
token identifier. -/
def UserRegisterHandler {σ : Type} (db : UserDb σ)
    (IDKey : List Byte → List Byte → Nat → Nat → Nat → Nat → List Byte)
    (v2 : PasetoV2) (pasetoSymmetricKey : List Byte) (now : Time)
    (randSalt randJti : Except RandError (List Byte))
    (validate : RequestUser → Option String) (s : σ) (body : Option RequestUser) :
    σ × HandlerResponse :=
  match body with
  | none =>
    (s, .error (HandleError "Invalid request format" StatusUnprocessableEntity))
  | some user =>
    match validate user with
    | some msg => (s, .error (HandleError msg StatusUnprocessableEntity))
    | none =>
      match RegisterUser db IDKey randSalt now s user.Username user.Email user.Password with
      | (s1, some _) =>
        (s1, .error (HandleError "Failed to register user" StatusUnprocessableEntity))
      | (s1, none) =>
        match GetUserForAuth db s1 [] user.Username with
        | .error _ =>
          (s1, .error (HandleError "Failed to retrieve user data" StatusUnprocessableEntity))
        | .ok NewUser =>
          let token := GenerateToken v2 pasetoSymmetricKey now randJti NewUser.ID
          match AddToken db s1 token NewUser.ID with
          | (s2, some _) =>
            (s2, .error (HandleError "Failed to create authentication token"
              StatusUnprocessableEntity))
          | (s2, none) => (s2, .user StatusCreated (userResponse NewUser token))

/-- Go `GetUserHandler`; `uid` is the value the middleware put in the
context. -/
def GetUserHandler {σ : Type} (db : UserDb σ) (s : σ) (uid : GoString) : σ × HandlerResponse :=
  match GetUserForApi db s uid with
  | .error _ =>
    (s, .error (HandleError "Failed to retrieve user data" StatusUnprocessableEntity))
  | .ok user =>
    match FindTokenByUID db s uid with
    | .error _ =>
      (s, .error (HandleError "Failed to retrieve authentication token"
        StatusUnprocessableEntity))
    | .ok token =>
      (s, .user StatusOK
        { Id := user.ID, Email := user.Email, Username := user.Username, Bio := user.Bio,
          Image := user.Image, CreatedAt := user.CreatedAt, UpdatedAt := user.UpdatedAt,
          Token := token.Token })

/-- The body of a login request. -/
structure LoginPayload where
  Email : GoString
  Password : GoString
  deriving DecidableEq, Repr

/-- Go `LoginUserHandler`. -/
def LoginUserHandler {σ : Type} (db : UserDb σ)
    (IDKey : List Byte → List Byte → Nat → Nat → Nat → Nat → List Byte)
    (v2 : PasetoV2) (pasetoSymmetricKey : List Byte) (now : Time)
    (rand : Except RandError (List Byte))
    (validate : LoginPayload → Option String) (s : σ) (body : Option LoginPayload) :
    σ × HandlerResponse :=
  match body with
  | none =>
    (s, .error (HandleError "Invalid request format" StatusUnprocessableEntity))
  | some loginPayload =>
    match validate loginPayload with
    | some msg => (s, .error (HandleError msg StatusUnprocessableEntity))
    | none =>
      match GetUserForAuth db s loginPayload.Email [] with
      | .error _ => (s, .error (HandleError "Invalid credentials" StatusUnauthorized))
      | .ok user =>
        if ComparePasswords IDKey loginPayload.Password user.PasswordHash
            user.PasswordSalt = false then
          (s, .error (HandleError "Invalid credentials" StatusUnauthorized))
        else
          let found := FindTokenByUID db s user.ID
          let token : UserAuthToken := match found with
            | .ok tokenDB => tokenDB
            | .error _ => zeroToken
          let err : Option RepoErr := match found with
            | .ok _ => none
            | .error e => some e
          if isNewNoResult err = true then
            let minted := GenerateToken v2 pasetoSymmetricKey now rand user.ID
            match AddToken db s minted user.ID with
            | (s1, some _) =>
              (s1, .error (HandleError "Failed to create authentication token"
                StatusUnprocessableEntity))
            | (s1, none) => (s1, .user StatusOK (userResponse user minted))
          else if err ≠ none then
            (s, .error (HandleError "Failed to retrieve authentication token"
              StatusUnprocessableEntity))
          else (s, .user StatusOK (userResponse user token.Token))

/-- The body of an update request. -/
structure UpdatePayload where
  Email : GoString
  Username : GoString
  Bio : GoString
  Image : GoString
  deriving DecidableEq, Repr

/-- The four conditional assignments of `UpdateUserHandler` ("Update user
fields if provided"). -/
def applyUpdate (user : UserTableDB) (updatePayload : UpdatePayload) : UserTableDB :=
  let user := if updatePayload.Email ≠ [] then { user with Email := updatePayload.Email }
    else user
  let user := if updatePayload.Username ≠ [] then
      { user with Username := updatePayload.Username }
    else user
  let user := if updatePayload.Bio ≠ [] then { user with Bio := updatePayload.Bio } else user
  let user := if updatePayload.Image ≠ [] then { user with Image := updatePayload.Image }
    else user
  user

/-- The statements of `UpdateUserHandler` after the call of `UpdateUser`,
given what that call returned. -/
def afterUpdateUser {σ : Type} (db : UserDb σ) (v2 : PasetoV2) (pasetoSymmetricKey : List Byte)
    (now : Time) (rand : Except RandError (List Byte)) (user : UserTableDB)
    (updated : σ × Option RepoErr) : σ × HandlerResponse :=
  match updated with
  | (s1, some _) => (s1, .error (HandleError "Failed to update user data" StatusBadRequest))
  | (s1, none) =>
    let found := FindTokenByUID db s1 user.ID
    let token : UserAuthToken := match found with
      | .ok tokenDB => tokenDB
      | .error _ => zeroToken
    let err : Option RepoErr := match found with
      | .ok _ => none
      | .error e => some e
    if isNewNoResult err = true then
      let minted := GenerateToken v2 pasetoSymmetricKey now rand user.ID
      match AddToken db s1 minted user.ID with
      | (s2, some _) =>
        (s2, .error (HandleError "Failed to create authentication token"
          StatusUnprocessableEntity))
      | (s2, none) => (s2, .user StatusOK (userResponse user minted))
    else if err ≠ none then
      (s1, .error (HandleError "Failed to retrieve authentication token"
        StatusUnprocessableEntity))
    else (s1, .user StatusOK (userResponse user token.Token))

/-- Go `UpdateUserHandler`; `uid` is the value the middleware put in the
context. -/
def UpdateUserHandler {σ : Type} (db : UserDb σ) (v2 : PasetoV2)
    (pasetoSymmetricKey : List Byte) (now : Time) (rand : Except RandError (List Byte))
    (s : σ) (body : Option UpdatePayload) (uid : GoString) : σ × HandlerResponse :=
  match body with
  | none =>
    (s, .error (HandleError "Invalid request format" StatusUnprocessableEntity))
  | some updatePayload =>
    match GetUserForUpdate db s uid with
    | .error _ => (s, .error (HandleError "Failed to retrieve user data" StatusUnauthorized))
    | .ok user =>
      let user := applyUpdate user updatePayload
      afterUpdateUser db v2 pasetoSymmetricKey now rand user (UpdateUser db s user now)

/-- Go `LogoutHandler`; `uid` is the value the middleware put in the
context. -/
def LogoutHandler {σ : Type} (db : UserDb σ) (s : σ) (uid : GoString) : σ × HandlerResponse :=
  match FindTokenByUID db s uid with
  | .error _ =>
    (s, .error (HandleError "Failed to retrieve authentication token" StatusUnauthorized))
  | .ok token =>
    match DeleteToken db s token.Token with
    | (s1, some _) => (s1, .error (HandleError "Failed to logout user" StatusBadRequest))
    | (s1, none) => (s1, .status StatusOK)

/-- Go `CheckProfileHandler`.  `userName` is the path variable, `followerUID`
the string under `uid` in the context (`none` when there is none). -/
def CheckProfileHandler {σ : Type} (db : UserDb σ) (s : σ) (userName : GoString)
    (followerUID : Option GoString) : σ × HandlerResponse :=
  if userName = [] then (s, .httpError StatusBadRequest "Username parameter is missing")
  else
    match GetUserForAuth db s [] userName with
    | .error err =>
      if err = RepoErr.ErrUserNotFound then
        (s, .httpError StatusNotFound "Profile user not found")
      else (s, .httpError StatusInternalServerError "Internal server error")
    | .ok followedUser =>
      let isFollowing : Bool :=
        match followerUID with
        | none => false
        | some uid =>
          match CheckFollow db s uid followedUser.ID with
          | .error _ => false
          | .ok isFollowingCheck => isFollowingCheck
      (s, .profile StatusOK
        { Id := followedUser.ID, Username := followedUser.Username, Bio := followedUser.Bio,
          Image := followedUser.Image, Following := isFollowing,
          CreatedAt := followedUser.CreatedAt, UpdatedAt := followedUser.UpdatedAt })

/-! ## A user database for concrete runs -/

/-- The tables `users`, `tokens` and `subscriptions`, and the clock of the
database. -/
structure MemUsers where
  users : List UserTableDB
  tokens : List UserAuthToken
  subscriptions : List (GoString × GoString)
  clock : Time
  deriving DecidableEq, Repr

/-- Modelled from the spec: the tables `users(id, username UNIQUE, email
UNIQUE, ...)`, `tokens(id, token, created_at, end_date, user_id)` and
`subscriptions(sub_id, target_user_id)`; the schema is not part of the
sources.  A new row gets its id and its dates from the database (a token row
ends 7 days after its creation); a `SELECT` answers with the first matching
row; no call fails for a reason outside the tables. -/
def memUsers : UserDb MemUsers where
  selectUserByUsername s username :=
    match s.users.find? (fun u => decide (u.Username = username)) with
    | some u => .row u
    | none => .noRow
  selectUserByEmail s email :=
    match s.users.find? (fun u => decide (u.Email = email)) with
    | some u => .row u
    | none => .noRow
  selectUserById s id :=
    match s.users.find? (fun u => decide (u.ID = id)) with
    | some u => .ok u
    | none => .error PgxErr.ErrNoRows
  insertUser s u :=
    if s.users.any (fun r => decide (r.Email = u.Email)) then
      (s, .error (ExecErr.uniqueViolation "users_email_key"))
    else if s.users.any (fun r => decide (r.Username = u.Username)) then
      (s, .error (ExecErr.uniqueViolation "users_username_key"))
    else
      ({ s with users := s.users ++
          [{ u with ID := fmtUnsigned (s.users.length + 1), CreatedAt := s.clock,
                    UpdatedAt := s.clock }] }, .ok 1)
  updateUser s u now :=
    if s.users.any (fun r => decide (r.ID ≠ u.ID ∧ r.Email = u.Email)) then
      (s, .error (ExecErr.uniqueViolation "users_email_key"))
    else if s.users.any (fun r => decide (r.ID ≠ u.ID ∧ r.Username = u.Username)) then
      (s, .error (ExecErr.uniqueViolation "users_username_key"))
    else
      ({ s with users := s.users.map fun r =>
          if r.ID = u.ID then
            { r with Username := u.Username, Email := u.Email, PasswordHash := u.PasswordHash,
                     PasswordSalt := u.PasswordSalt, Bio := u.Bio, Image := u.Image,
                     UpdatedAt := now }
          else r },
        .ok (s.users.countP fun r => decide (r.ID = u.ID)))
  insertToken s token uid :=
    ({ s with tokens := s.tokens ++
        [{ ID := fmtUnsigned (s.tokens.length + 1), Token := token, CreatedAt := s.clock,
           EndDate := s.clock + Hour * 24 * 7, UID := uid }] }, .ok 1)
  selectToken s token :=
    match s.tokens.find? (fun r => decide (r.Token = token)) with
    | some r => .row r
    | none => .noRow
  deleteToken s token :=
    ({ s with tokens := s.tokens.filter fun r => decide (r.Token ≠ token) },
      .ok (s.tokens.countP fun r => decide (r.Token = token)))
  selectTokenByUID s uid :=
    match s.tokens.find? (fun r => decide (r.UID = uid)) with
    | some r => .ok r
    | none => .error PgxErr.ErrNoRows
  selectFollow s followerId followedId :=
    .ok (s.subscriptions.any fun e => decide (e = (followerId, followedId)))

/-- The user of the concrete runs: `alice1` with id `u1`, whose verifier was
derived from the secret `hunter2` with the stand-in key derivation. -/
def sampleUser : UserTableDB :=
  { ID := "u1".toList, Username := "alice1".toList, Email := "a@b.co".toList,
    PasswordHash := "aHVudGVyMgECAwQFBgcICQoLDA0ODxAAAAAAAAAAAAA".toList,
    PasswordSalt := "AQIDBAUGBwgJCgsMDQ4PEA".toList, Bio := [], Image := [],
    CreatedAt := 1000, UpdatedAt := 1000 }

/-- A session record of the user `u1`. -/
def sessionOf (id : String) (token : String) (endDate : Time) : UserAuthToken :=
  { ID := id.toList, Token := bytesOf token, CreatedAt := 1000, EndDate := endDate,
    UID := "u1".toList }

/-- The database with `alice1` and no session record. -/
def noSession : MemUsers :=
  { users := [sampleUser], tokens := [], subscriptions := [], clock := 2000 }

/-- The database with `alice1` and one session record, for the token `abc`. -/
def oneSession : MemUsers :=
  { users := [sampleUser], tokens := [sessionOf "1" "abc" 605800], subscriptions := [],
    clock := 2000 }

/-- The database with `alice1` and two session records, for the tokens `xyz`
and `abc`. -/
def twoSessions : MemUsers :=
  { users := [sampleUser],
    tokens := [sessionOf "1" "xyz" 605800, sessionOf "2" "abc" 605800],
    subscriptions := [], clock := 2000 }

/-- The database with `alice1` and one session record, for the token `abc`,
that ended at time 1500. -/
def pastSession : MemUsers :=
  { users := [sampleUser], tokens := [sessionOf "1" "abc" 1500], subscriptions := [],
    clock := 2000 }

/-- Two user records that differ at most in `PasswordHash` and
`PasswordSalt`. -/
def samePublic (u u' : UserTableDB) : Prop :=
  u.ID = u'.ID ∧ u.Username = u'.Username ∧ u.Email = u'.Email ∧ u.Bio = u'.Bio ∧
    u.Image = u'.Image ∧ u.CreatedAt = u'.CreatedAt ∧ u.UpdatedAt = u'.UpdatedAt

/-- A database whose existence query fails on every call with an error other
than "no rows". -/
def failingDb : ArticleDb Unit where
  selectSlug _ _ := ((), .error PgxErr.Other)
  insertArticle _ _ := ((), none)

/-- The user `alice1` with another verifier of the same secret `hunter2`,
derived with another salt. -/
def sampleUserRehashed : UserTableDB :=
  { sampleUser with
    PasswordHash := "aHVudGVyMhAPDg0MCwoJCAcGBQQDAgEAAAAAAAAAAAA".toList,
    PasswordSalt := "EA8ODQwLCgkIBwYFBAMCAQ".toList }

/-- The database `oneSession` with the other verifier stored for `alice1`. -/
def oneSessionRehashed : MemUsers :=
  { oneSession with users := [sampleUserRehashed] }

/-! ## Reading the slug -/

/-- The value of a run of decimal digits. -/
def digitsVal (d : List Char) : Nat :=
  d.foldl (fun acc c => 10 * acc + (c.toNat - '0'.toNat)) 0

/-- The decimal representation of `n` with no sign and no leading zero: `d` is
a non-empty run of the characters `0..9`, does not start with `0`, and has the
value `n`. -/
def IsDecimalOf (d : List Char) (n : Nat) : Prop :=
  d ≠ [] ∧ (∀ c ∈ d, c ∈ ['0', '1', '2', '3', '4', '5', '6', '7', '8', '9']) ∧
    d.head? ≠ some '0' ∧ digitsVal d = n

/-- What one rune of the lowercased title becomes in the slug. -/
def slugRune (c : Char) : List Char :=
  if c = ' ' then ['-'] else if c ∈ stripChars then [] else [c]

/-- A rune outside ASCII. -/
def nonASCII (c : Char) : Bool := decide (0x7F < c.toNat)

/-- The characters that need no escaping in a URL path segment: ASCII
letters, digits, `-`, `_`, `.` and `~`. -/
def urlSafe (c : Char) : Bool :=
  decide (('a'.toNat ≤ c.toNat ∧ c.toNat ≤ 'z'.toNat) ∨ ('A'.toNat ≤ c.toNat ∧ c.toNat ≤ 'Z'.toNat) ∨
    ('0'.toNat ≤ c.toNat ∧ c.toNat ≤ '9'.toNat) ∨ c = '-' ∨ c = '_' ∨ c = '.' ∨ c = '~')

/-! ## Theorems -/

/-! ### `ReplaceAll` and the title part -/

theorem ReplaceAll_append (a b : GoString) (old : Char) (new : GoString) :
    ReplaceAll (a ++ b) old new = ReplaceAll a old new ++ ReplaceAll b old new := by
  induction a with
  | nil => simp [ReplaceAll]
  | cons c a ih => simp [ReplaceAll, ih]

theorem ReplaceAll_nil (old : Char) (new : GoString) : ReplaceAll [] old new = [] := rfl

theorem normalizeTitle_nil (tbl : Char → Char) : normalizeTitle tbl [] = [] := rfl

theorem normalizeTitle_append (tbl : Char → Char) (a b : GoString) :
    normalizeTitle tbl (a ++ b) = normalizeTitle tbl a ++ normalizeTitle tbl b := by
  simp only [normalizeTitle, ToLower, List.map_append, ReplaceAll_append]

theorem normalizeTitle_singleton (tbl : Char → Char) (c : Char) :
    normalizeTitle tbl [c] = slugRune (toLowerRune tbl c) := by
  simp only [normalizeTitle, ToLower, List.map_cons, List.map_nil]
  generalize toLowerRune tbl c = x
  unfold slugRune stripChars
  by_cases h0 : x = ' '
  · subst h0; decide
  by_cases h1 : x = '.'
  · subst h1; decide
  by_cases h2 : x = ','
  · subst h2; decide
  by_cases h3 : x = '!'
  · subst h3; decide
  by_cases h4 : x = '?'
  · subst h4; decide
  by_cases h5 : x = ':'
  · subst h5; decide
  by_cases h6 : x = ';'
  · subst h6; decide
  by_cases h7 : x = '\''
  · subst h7; decide
  by_cases h8 : x = '"'
  · subst h8; decide
  simp [ReplaceAll, h0, h1, h2, h3, h4, h5, h6, h7, h8]

theorem normalizeTitle_cons (tbl : Char → Char) (c : Char) (t : GoString) :
    normalizeTitle tbl (c :: t) = slugRune (toLowerRune tbl c) ++ normalizeTitle tbl t := by
  have h := normalizeTitle_append tbl [c] t
  rw [normalizeTitle_singleton] at h
  simpa using h

/-! ### The decimal rendering of the index -/

theorem digitChar_toNat (d : Nat) (hd : d < 10) : (digitChar d).toNat = '0'.toNat + d := by
  interval_cases d <;> rfl

theorem digitChar_mem (d : Nat) (hd : d < 10) :
    digitChar d ∈ ['0', '1', '2', '3', '4', '5', '6', '7', '8', '9'] := by
  interval_cases d <;> decide

theorem digitChar_ne_zero (d : Nat) (hd : d < 10) (h1 : 1 ≤ d) : digitChar d ≠ '0' := by
  interval_cases d <;> decide

theorem fmtDigits_buf (fuel u : Nat) (buf : List Char) :
    fmtDigits fuel u buf = fmtDigits fuel u [] ++ buf := by
  induction fuel generalizing u buf with
  | zero => simp [fmtDigits]
  | succ fuel ih =>
    simp only [fmtDigits]
    split
    · rw [ih (u / 10) (digitChar (u % 10) :: buf), ih (u / 10) [digitChar (u % 10)]]
      simp
    · simp

theorem fmtDigits_step (fuel u : Nat) (h : 10 ≤ u) :
    fmtDigits (fuel + 1) u [] = fmtDigits fuel (u / 10) [] ++ [digitChar (u % 10)] := by
  simp only [fmtDigits, if_pos h]
  exact fmtDigits_buf fuel (u / 10) [digitChar (u % 10)]

theorem fmtDigits_last (fuel u : Nat) (h : ¬ 10 ≤ u) :
    fmtDigits (fuel + 1) u [] = [digitChar u] := by
  simp only [fmtDigits, if_neg h]

theorem digitsVal_append_digit (d : List Char) (k : Nat) (hk : k < 10) :
    digitsVal (d ++ [digitChar k]) = 10 * digitsVal d + k := by
  simp only [digitsVal, List.foldl_append, List.foldl_cons, List.foldl_nil]
  rw [digitChar_toNat k hk]
  omega

/-- With enough iterations the digit loop writes the decimal representation
of its argument. -/
theorem fmtDigits_isDecimalOf (fuel : Nat) :
    ∀ u : Nat, u < fuel → 1 ≤ u → IsDecimalOf (fmtDigits fuel u []) u := by
  induction fuel with
  | zero => intro u h; omega
  | succ fuel ih =>
    intro u hu h1
    by_cases h : 10 ≤ u
    · rw [fmtDigits_step fuel u h]
      obtain ⟨hne, hall, hhead, hval⟩ := ih (u / 10) (by omega) (by omega)
      refine ⟨by simp, ?_, ?_, ?_⟩
      · intro c hc
        rcases List.mem_append.mp hc with hc | hc
        · exact hall c hc
        · rw [List.mem_singleton.mp hc]
          exact digitChar_mem _ (Nat.mod_lt _ (by decide))
      · cases hd : fmtDigits fuel (u / 10) [] with
        | nil => exact absurd hd hne
        | cons x xs =>
          rw [hd] at hhead
          simpa using hhead
      · rw [digitsVal_append_digit _ _ (Nat.mod_lt _ (by decide)), hval]
        omega
    · rw [fmtDigits_last fuel u h]
      have hlt : u < 10 := by omega
      refine ⟨by simp, ?_, ?_, ?_⟩
      · intro c hc
        rw [List.mem_singleton.mp hc]
        exact digitChar_mem u hlt
      · simpa using digitChar_ne_zero u hlt h1
      · have := digitsVal_append_digit [] u hlt
        simpa [digitsVal] using this

theorem fmtUnsigned_isDecimalOf (u : Nat) (h1 : 1 ≤ u) : IsDecimalOf (fmtUnsigned u) u :=
  fmtDigits_isDecimalOf (u + 1) u (by omega) h1

theorem fmtUnsigned_zero : fmtUnsigned 0 = ['0'] := rfl

theorem digitsVal_fmtUnsigned (u : Nat) : digitsVal (fmtUnsigned u) = u := by
  rcases Nat.eq_zero_or_pos u with h | h
  · subst h; rfl
  · exact (fmtUnsigned_isDecimalOf u h).2.2.2

theorem fmtUnsigned_injective (u v : Nat) (h : fmtUnsigned u = fmtUnsigned v) : u = v := by
  have := congrArg digitsVal h
  rwa [digitsVal_fmtUnsigned, digitsVal_fmtUnsigned] at this

theorem fmtUnsigned_mem (u : Nat) :
    ∀ c ∈ fmtUnsigned u, c ∈ ['0', '1', '2', '3', '4', '5', '6', '7', '8', '9'] := by
  rcases Nat.eq_zero_or_pos u with h | h
  · subst h; decide
  · exact (fmtUnsigned_isDecimalOf u h).2.1

theorem formatInt_of_nonneg (i : Int) (h : 0 ≤ i) : formatInt i = fmtUnsigned i.toNat := by
  have h' : ¬ i < 0 := by omega
  simp only [formatInt, if_neg h']
  congr 1
  omega

theorem formatInt_mem (i : Int) :
    ∀ c ∈ formatInt i, c ∈ ['-', '0', '1', '2', '3', '4', '5', '6', '7', '8', '9'] := by
  intro c hc
  have key : ∀ c ∈ fmtUnsigned i.natAbs,
      c ∈ ['-', '0', '1', '2', '3', '4', '5', '6', '7', '8', '9'] := fun c hc =>
    List.mem_cons_of_mem _ (fmtUnsigned_mem _ c hc)
  unfold formatInt at hc
  split at hc
  · rcases List.mem_cons.mp hc with hc | hc
    · rw [hc]; decide
    · exact key c hc
  · exact key c hc

/-- On indices from `0` up, different indices give different slugs of one
title. -/
theorem Slugify_injective (tbl : Char → Char) (title : GoString) (i j : Int)
    (hi : 0 ≤ i) (hj : 0 ≤ j) (h : Slugify tbl title i = Slugify tbl title j) : i = j := by
  simp only [Slugify, List.append_assoc] at h
  have h2 := List.append_cancel_left (List.append_cancel_left h)
  rw [formatInt_of_nonneg i hi, formatInt_of_nonneg j hj] at h2
  have := fmtUnsigned_injective _ _ h2
  omega

/-! ### The slug loop -/

/-- The loop only ever holds a slug of the title at the current index, and the
index never decreases. -/
theorem slugLoop_result {σ : Type} (tbl : Char → Char) (db : ArticleDb σ) (title : GoString)
    (fuel : Nat) : ∀ (s : σ) (index : Int) (s' : σ) (k : Int) (slug' : GoString),
    slugLoop tbl db title fuel s index (Slugify tbl title index) = some (s', k, slug') →
      index ≤ k ∧ slug' = Slugify tbl title k := by
  induction fuel with
  | zero => intro s index s' k slug' h; simp [slugLoop] at h
  | succ fuel ih =>
    intro s index s' k slug' h
    simp only [slugLoop] at h
    split at h
    · obtain ⟨h1, h2⟩ := ih _ _ _ _ _ h
      exact ⟨by omega, h2⟩
    · simp only [Option.some.injEq, Prod.mk.injEq] at h
      obtain ⟨-, hk, hs⟩ := h
      subst hk
      exact ⟨le_refl _, hs.symm⟩

theorem memDb_select_rows (s : MemDb) (slug : GoString) :
    (memDb.selectSlug s slug).1.rows = s.rows := by
  simp only [memDb]
  split <;> rfl

theorem memDb_IsSlugExists_rows (s : MemDb) (slug : GoString) :
    (IsSlugExists memDb s slug).1.rows = s.rows := by
  have h := memDb_select_rows s slug
  unfold IsSlugExists
  split
  · rename_i s' err heq
    rw [heq] at h; exact h
  · rename_i s' x heq
    rw [heq] at h; exact h

theorem memDb_slugLoop_rows (tbl : Char → Char) (title : GoString) (fuel : Nat) :
    ∀ (s : MemDb) (index : Int) (slug : GoString) (r : MemDb × Int × GoString),
    slugLoop tbl memDb title fuel s index slug = some r → r.1.rows = s.rows := by
  induction fuel with
  | zero => intro s index slug r h; simp [slugLoop] at h
  | succ fuel ih =>
    intro s index slug r h
    simp only [slugLoop] at h
    have hrows := memDb_IsSlugExists_rows s slug
    split at h
    · rw [ih _ _ _ _ h, hrows]
    · simp only [Option.some.injEq] at h
      rw [← h]; exact hrows

theorem memDb_insert_rows (s : MemDb) (a : DBArticle) :
    (memDb.insertArticle s a).1.rows = s.rows ∨
      ((memDb.insertArticle s a).1.rows = s.rows ++ [a] ∧ (memDb.insertArticle s a).2 = none) := by
  simp only [memDb]
  split
  · left; rfl
  · split
    · left; rfl
    · right; exact ⟨rfl, rfl⟩

theorem CreateArticle_eq {σ : Type} (db : ArticleDb σ) (s : σ) (a : DBArticle) :
    CreateArticle db s a = db.insertArticle s a := by
  unfold CreateArticle
  split <;> (rename_i h; rw [h])

/-- What a run of the handler that reaches the loop does: the loop's slug is
put in the article, the article is inserted, and the response follows the
outcome of the insert. -/
theorem CreateArticleHandler_run {σ : Type} (tbl : Char → Char) (db : ArticleDb σ) (fuel : Nat)
    (s : σ) (username : GoString) (req : CreateArticleRequest) (now : Time)
    (s1 : σ) (k : Int) (slug : GoString)
    (hloop : slugLoop tbl db req.Title fuel s 1 (Slugify tbl req.Title 1) = some (s1, k, slug)) :
    CreateArticleHandler tbl db fuel s (some username) (some req) now =
      some ((db.insertArticle s1 (newArticle slug req username)).1,
        match (db.insertArticle s1 (newArticle slug req username)).2 with
        | some _ => Response.error StatusUnprocessableEntity "Failed to create article"
        | none => Response.created StatusCreated
            (newResponse slug (newArticle slug req username) username now)) := by
  simp only [CreateArticleHandler, hloop, CreateArticle_eq]
  split <;> (rename_i h; simp [h])

/-- C3: for every title `T` and index `i ≥ 1`, `Slugify(T, i)` is
`N(T) ++ "-" ++ d(i)` where `N(T)` (`normalizeTitle`) is a function of the
title alone and `d(i)` is the decimal representation of `i` without sign or
leading zero; the slug of every article the handler reports as created, and of
every row it adds to the table, has this form for some `i ≥ 1`. -/
theorem slug_form (tbl : Char → Char) :
    (∀ (title : GoString) (i : Int), 1 ≤ i →
      ∃ d, IsDecimalOf d i.toNat ∧
        Slugify tbl title i = normalizeTitle tbl title ++ ['-'] ++ d) ∧
    (∀ (σ : Type) (db : ArticleDb σ) (fuel : Nat) (s s' : σ) (user : Option GoString)
        (req : CreateArticleRequest) (now : Time) (st : Nat)
        (a : DBArticleResponseWithAuthorUsername),
      CreateArticleHandler tbl db fuel s user (some req) now = some (s', Response.created st a) →
      ∃ i : Int, 1 ≤ i ∧ ∃ d, IsDecimalOf d i.toNat ∧
        a.Slug = normalizeTitle tbl req.Title ++ ['-'] ++ d) ∧
    (∀ (fuel : Nat) (s s' : MemDb) (user : Option GoString)
        (request : Option CreateArticleRequest) (now : Time) (r : Response),
      CreateArticleHandler tbl memDb fuel s user request now = some (s', r) →
      ∀ row ∈ s'.rows, row ∈ s.rows ∨ ∃ req, request = some req ∧
        ∃ i : Int, 1 ≤ i ∧ ∃ d, IsDecimalOf d i.toNat ∧
          row.Slug = normalizeTitle tbl req.Title ++ ['-'] ++ d) := by
  have form : ∀ (title : GoString) (i : Int), 1 ≤ i →
      ∃ d, IsDecimalOf d i.toNat ∧
        Slugify tbl title i = normalizeTitle tbl title ++ ['-'] ++ d := by
    intro title i hi
    refine ⟨fmtUnsigned i.toNat, fmtUnsigned_isDecimalOf _ (by omega), ?_⟩
    simp only [Slugify, formatInt_of_nonneg i (by omega)]
  refine ⟨form, ?_, ?_⟩
  · intro σ db fuel s s' user req now st a h
    cases user with
    | none => simp [CreateArticleHandler] at h
    | some username =>
      cases hloop : slugLoop tbl db req.Title fuel s 1 (Slugify tbl req.Title 1) with
      | none => simp [CreateArticleHandler, hloop] at h
      | some res =>
        obtain ⟨s1, k, slug⟩ := res
        rw [CreateArticleHandler_run tbl db fuel s username req now s1 k slug hloop] at h
        obtain ⟨hk, hslug⟩ := slugLoop_result tbl db req.Title fuel s 1 s1 k slug hloop
        simp only [Option.some.injEq, Prod.mk.injEq] at h
        obtain ⟨-, h⟩ := h
        split at h
        · simp at h
        · simp only [Response.created.injEq] at h
          obtain ⟨-, ha⟩ := h
          obtain ⟨d, hd, hform⟩ := form req.Title k hk
          refine ⟨k, hk, d, hd, ?_⟩
          rw [← ha]
          exact hslug.trans hform
  · intro fuel s s' user request now r h row hrow
    cases user with
    | none =>
      simp only [CreateArticleHandler, Option.some.injEq, Prod.mk.injEq] at h
      rw [← h.1] at hrow; exact Or.inl hrow
    | some username =>
      cases request with
      | none =>
        simp only [CreateArticleHandler, Option.some.injEq, Prod.mk.injEq] at h
        rw [← h.1] at hrow; exact Or.inl hrow
      | some req =>
        cases hloop : slugLoop tbl memDb req.Title fuel s 1 (Slugify tbl req.Title 1) with
        | none => simp [CreateArticleHandler, hloop] at h
        | some res =>
          obtain ⟨s1, k, slug⟩ := res
          rw [CreateArticleHandler_run tbl memDb fuel s username req now s1 k slug hloop] at h
          obtain ⟨hk, hslug⟩ := slugLoop_result tbl memDb req.Title fuel s 1 s1 k slug hloop
          have hrows1 : s1.rows = s.rows := memDb_slugLoop_rows tbl req.Title fuel s 1 _ _ hloop
          simp only [Option.some.injEq, Prod.mk.injEq] at h
          obtain ⟨hs', -⟩ := h
          rw [← hs'] at hrow
          rcases memDb_insert_rows s1 _ with hins | ⟨hins, -⟩
          · rw [hins, hrows1] at hrow; exact Or.inl hrow
          · rw [hins, hrows1] at hrow
            rcases List.mem_append.mp hrow with hrow | hrow
            · exact Or.inl hrow
            · right
              obtain ⟨d, hd, hform⟩ := form req.Title k hk
              refine ⟨req, rfl, k, hk, d, hd, ?_⟩
              rw [List.mem_singleton.mp hrow]
              exact hslug.trans hform

/-! ### What `Slugify` does to the runes of the title -/

theorem slugRune_mem (x c : Char) (h : c ∈ slugRune x) :
    c ≠ ' ' ∧ c ∉ stripChars ∧ ((x = ' ' ∧ c = '-') ∨ (x ≠ ' ' ∧ c = x)) := by
  unfold slugRune at h
  split at h
  · rename_i hx
    rw [List.mem_singleton.mp h]
    exact ⟨by decide, by decide, Or.inl ⟨hx, rfl⟩⟩
  · rename_i hx
    split at h
    · simp at h
    · rename_i hs
      rw [List.mem_singleton.mp h]
      exact ⟨hx, hs, Or.inr ⟨hx, rfl⟩⟩

theorem mem_normalizeTitle (tbl : Char → Char) (title : GoString) (c : Char)
    (h : c ∈ normalizeTitle tbl title) : ∃ r ∈ title, c ∈ slugRune (toLowerRune tbl r) := by
  induction title with
  | nil => simp [normalizeTitle_nil] at h
  | cons r t ih =>
    rw [normalizeTitle_cons] at h
    rcases List.mem_append.mp h with h | h
    · exact ⟨r, List.mem_cons_self _ _, h⟩
    · obtain ⟨r', hr', hc⟩ := ih h
      exact ⟨r', List.mem_cons_of_mem _ hr', hc⟩

theorem normalizeTitle_replicate_space (tbl : Char → Char) (n : Nat) :
    normalizeTitle tbl (List.replicate n ' ') = List.replicate n '-' := by
  induction n with
  | zero => rfl
  | succ n ih =>
    rw [List.replicate_succ, normalizeTitle_cons, ih, List.replicate_succ]
    rfl

/-- C4, as the code has it: a title with two adjacent spaces between two words
yields two `-` between them, not one. -/
theorem double_space_two_hyphens :
    Slugify latin1Table "a  b".toList 1 = "a--b-1".toList ∧
      Slugify latin1Table "a  b".toList 1 ≠ "a-b-1".toList := by
  decide

/-- C4 (amended): `Slugify` replaces every single space by one `-`, so a run
of `n` consecutive spaces between two parts of the title yields `n` consecutive
`-` between the parts' own images. -/
theorem spaces_to_hyphens (tbl : Char → Char) (a b : GoString) (n : Nat) (i : Int) :
    Slugify tbl (a ++ List.replicate n ' ' ++ b) i =
      normalizeTitle tbl a ++ List.replicate n '-' ++ normalizeTitle tbl b ++ ['-'] ++
        formatInt i := by
  simp only [Slugify, normalizeTitle_append, normalizeTitle_replicate_space]

/-- C5: the title part of the slug is the lowercased title with every space
replaced, filtered by "is not one of the eight strip characters" (a filter
keeps the order of what remains and inserts nothing); the slug is that part,
`-` and the index; and the slug contains no space and none of the eight
characters. -/
theorem strip_is_deletion (tbl : Char → Char) (title : GoString) (i : Int) :
    normalizeTitle tbl title =
        (ReplaceAll (ToLower tbl title) ' ' ['-']).filter (fun c => decide (c ∉ stripChars)) ∧
      Slugify tbl title i = normalizeTitle tbl title ++ ['-'] ++ formatInt i ∧
      ((Slugify tbl title i).all fun c => decide (c ≠ ' ' ∧ c ∉ stripChars)) = true := by
  refine ⟨?_, rfl, ?_⟩
  · induction title with
    | nil => rfl
    | cons r t ih =>
      rw [normalizeTitle_cons, ih]
      simp only [ToLower, List.map_cons, ReplaceAll, List.filter_append]
      congr 1
      unfold slugRune
      by_cases hx : toLowerRune tbl r = ' '
      · rw [hx]; decide
      · simp only [if_neg hx]
        by_cases hs : toLowerRune tbl r ∈ stripChars
        · simp [hs]
        · simp [hs]
  · rw [List.all_eq_true]
    intro c hc
    simp only [Slugify, List.append_assoc, List.mem_append] at hc
    rcases hc with hc | hc | hc
    · obtain ⟨r, -, hr⟩ := mem_normalizeTitle tbl title c hc
      obtain ⟨h1, h2, -⟩ := slugRune_mem _ _ hr
      exact decide_eq_true ⟨h1, h2⟩
    · rw [List.mem_singleton.mp hc]; decide
    · have := formatInt_mem i c hc
      revert this
      generalize c = c'
      intro hmem
      have : ∀ x ∈ ['-', '0', '1', '2', '3', '4', '5', '6', '7', '8', '9'],
          decide (x ≠ ' ' ∧ x ∉ stripChars) = true := by decide
      exact this c' hmem

theorem slugRune_filter_nonASCII (x : Char) :
    (slugRune x).filter nonASCII = [x].filter nonASCII := by
  unfold slugRune
  by_cases hx : x = ' '
  · subst hx; decide
  · simp only [if_neg hx]
    by_cases hs : x ∈ stripChars
    · simp only [if_pos hs]
      have : ∀ y ∈ stripChars, [y].filter nonASCII = [] := by decide
      rw [this x hs]; rfl
    · simp only [if_neg hs]

/-- C6, as the code has it: the character `A`, neither a space nor a strip
character, does not occur in the slug of the title `A` (the slug is `a-1`);
and with the Latin-1 rows of the case table the non-ASCII characters of the
slug of `É` are not those of the title. -/
theorem uppercase_not_preserved :
    ('A' ∈ "A".toList ∧ 'A' ≠ ' ' ∧ 'A' ∉ stripChars ∧
        'A' ∉ Slugify latin1Table "A".toList 1) ∧
      (Slugify latin1Table "É".toList 1).filter nonASCII ≠ "É".toList.filter nonASCII := by
  decide

/-- C6 (amended): the non-ASCII characters of `Slugify(T, i)` are exactly the
non-ASCII characters of the lowercased title `ToLower(T)`, in the same order;
the slug's title part is `ToLower(T)` with, character by character, a space
turned into `-`, a strip character dropped and every other character kept as
it is; and `ToLower(T)` is `T` itself when `unicode.ToLower` fixes every
character of `T`. -/
theorem lowered_runes_pass (tbl : Char → Char) (title : GoString) (i : Int) :
    (Slugify tbl title i).filter nonASCII = (ToLower tbl title).filter nonASCII ∧
      normalizeTitle tbl title = (ToLower tbl title).flatMap slugRune ∧
      ((∀ r ∈ title, toLowerRune tbl r = r) → ToLower tbl title = title) := by
  refine ⟨?_, ?_, ?_⟩
  · have hidx : (formatInt i).filter nonASCII = [] := by
      rw [List.filter_eq_nil_iff]
      intro c hc
      have hmem := formatInt_mem i c hc
      have : ∀ x ∈ ['-', '0', '1', '2', '3', '4', '5', '6', '7', '8', '9'],
          ¬ nonASCII x = true := by decide
      exact this c hmem
    have hdash : ['-'].filter nonASCII = [] := by decide
    simp only [Slugify, List.filter_append, hidx, hdash, List.append_nil]
    induction title with
    | nil => rfl
    | cons r t ih =>
      rw [normalizeTitle_cons, List.filter_append, ih, slugRune_filter_nonASCII]
      simp only [ToLower, List.map_cons]
      rw [← List.filter_append]
      rfl
  · induction title with
    | nil => rfl
    | cons r t ih =>
      rw [normalizeTitle_cons, ih]
      simp only [ToLower, List.map_cons, List.flatMap_cons]
  · intro h
    unfold ToLower
    calc title.map (toLowerRune tbl) = title.map id := List.map_congr_left h
      _ = title := List.map_id title

/-! ### URL safety -/

/-- C7, as the code has it: the slug of the title `a/b` keeps the `/`, a
character that must be escaped in a URL path segment. -/
theorem slash_not_urlSafe :
    Slugify latin1Table "a/b".toList 1 = "a/b-1".toList ∧
      (Slugify latin1Table "a/b".toList 1).all urlSafe = false := by
  decide

theorem urlSafe_toLowerRune (tbl : Char → Char) (r : Char)
    (h : urlSafe r = true ∨ r = ' ' ∨ r ∈ stripChars) :
    urlSafe (toLowerRune tbl r) = true ∨ toLowerRune tbl r = ' ' ∨
      toLowerRune tbl r ∈ stripChars := by
  unfold toLowerRune
  by_cases hascii : r.toNat ≤ 0x7F
  · rw [if_pos hascii]
    by_cases hup : 'A'.toNat ≤ r.toNat ∧ r.toNat ≤ 'Z'.toNat
    · rw [if_pos hup]
      left
      obtain ⟨h1, h2⟩ := hup
      have h1' : 65 ≤ r.toNat := h1
      have h2' : r.toNat ≤ 90 := h2
      generalize r.toNat = n at h1' h2'
      interval_cases n <;> decide
    · rw [if_neg hup]; exact h
  · exfalso
    rcases h with h | h | h
    · unfold urlSafe at h
      have h' := of_decide_eq_true h
      have e1 : 'a'.toNat = 97 := rfl
      have e2 : 'z'.toNat = 122 := rfl
      have e3 : 'A'.toNat = 65 := rfl
      have e4 : 'Z'.toNat = 90 := rfl
      have e5 : '0'.toNat = 48 := rfl
      have e6 : '9'.toNat = 57 := rfl
      rw [e1, e2, e3, e4, e5, e6] at h'
      rcases h' with h' | h' | h' | h' | h' | h' | h'
      · omega
      · omega
      · omega
      · subst h'; exact hascii (by decide)
      · subst h'; exact hascii (by decide)
      · subst h'; exact hascii (by decide)
      · subst h'; exact hascii (by decide)
    · subst h; exact hascii (by decide)
    · have : ∀ y ∈ stripChars, y.toNat ≤ 0x7F := by decide
      exact hascii (this r h)

/-- C7 (amended): when every character of the title is an ASCII letter, a
digit, `-`, `_`, `.`, `~`, a space or one of the eight strip characters, the
slug consists only of characters that need no escaping in a URL path segment,
for every index. -/
theorem urlSafe_of_plain_title (tbl : Char → Char) (title : GoString) (i : Int)
    (h : (title.all fun c => urlSafe c || decide (c = ' ') || decide (c ∈ stripChars)) = true) :
    (Slugify tbl title i).all urlSafe = true := by
  rw [List.all_eq_true] at h ⊢
  intro c hc
  simp only [Slugify, List.append_assoc, List.mem_append] at hc
  rcases hc with hc | hc | hc
  · obtain ⟨r, hr, hcr⟩ := mem_normalizeTitle tbl title c hc
    have hr' := h r hr
    simp only [Bool.or_eq_true, decide_eq_true_eq] at hr'
    have hlow := urlSafe_toLowerRune tbl r (by tauto)
    obtain ⟨h1, h2, h3⟩ := slugRune_mem _ _ hcr
    rcases h3 with ⟨-, hc'⟩ | ⟨hx, hc'⟩
    · rw [hc']; decide
    · rw [hc'] at h2 ⊢
      rcases hlow with hlow | hlow | hlow
      · exact hlow
      · exact absurd hlow hx
      · exact absurd hlow h2
  · rw [List.mem_singleton.mp hc]; decide
  · have hmem := formatInt_mem i c hc
    have : ∀ x ∈ ['-', '0', '1', '2', '3', '4', '5', '6', '7', '8', '9'],
        urlSafe x = true := by decide
    exact this c hmem

/-- C7 (amended), at the title of the end-to-end scenario. -/
theorem urlSafe_of_plain_title_witness :
    ("Hello World!".toList.all
        fun c => urlSafe c || decide (c = ' ') || decide (c ∈ stripChars)) = true ∧
      (Slugify latin1Table "Hello World!".toList 1).all urlSafe = true :=
  ⟨by decide, urlSafe_of_plain_title latin1Table "Hello World!".toList 1 (by decide)⟩

/-! ### Termination of the slug loop -/

theorem slugLoop_succ {σ : Type} (tbl : Char → Char) (db : ArticleDb σ) (title : GoString)
    (fuel : Nat) (s : σ) (index : Int) (slug : GoString) :
    slugLoop tbl db title (fuel + 1) s index slug =
      if (IsSlugExists db s slug).2 = true then
        slugLoop tbl db title fuel (IsSlugExists db s slug).1 (index + 1)
          (Slugify tbl title (index + 1))
      else some ((IsSlugExists db s slug).1, index, slug) := rfl

/-- When the answers of `IsSlugExists` on the slugs of the title from index
`j` on are membership in a set of at most `n` slugs, the loop entered at `j`
leaves within `n + 1` iterations, at the first index from `j` whose slug is
not in the set. -/
theorem slugLoop_finds {σ : Type} (tbl : Char → Char) (db : ArticleDb σ) (title : GoString)
    (n : Nat) : ∀ (E : Finset GoString) (j : Int), E.card ≤ n → 0 ≤ j →
    (∀ (s : σ) (i : Int), j ≤ i →
      (IsSlugExists db s (Slugify tbl title i)).2 = decide (Slugify tbl title i ∈ E)) →
    ∀ (fuel : Nat), n + 1 ≤ fuel → ∀ s : σ, ∃ (s' : σ) (k : Int),
      slugLoop tbl db title fuel s j (Slugify tbl title j) = some (s', k, Slugify tbl title k) ∧
        j ≤ k ∧ k ≤ j + n ∧ Slugify tbl title k ∉ E ∧
        ∀ i : Int, j ≤ i → i < k → Slugify tbl title i ∈ E := by
  induction n with
  | zero =>
    intro E j hcard hj hprobe fuel hfuel s
    obtain ⟨f, rfl⟩ : ∃ f, fuel = f + 1 := ⟨fuel - 1, by omega⟩
    have hE : E = ∅ := Finset.card_eq_zero.mp (by omega)
    have hnot : Slugify tbl title j ∉ E := by rw [hE]; exact Finset.not_mem_empty _
    have hp := hprobe s j (le_refl _)
    rw [decide_eq_false hnot] at hp
    refine ⟨(IsSlugExists db s (Slugify tbl title j)).1, j, ?_, le_refl _, by omega, hnot, ?_⟩
    · rw [slugLoop_succ, hp]; rfl
    · intro i h1 h2; omega
  | succ n ih =>
    intro E j hcard hj hprobe fuel hfuel s
    obtain ⟨f, rfl⟩ : ∃ f, fuel = f + 1 := ⟨fuel - 1, by omega⟩
    have hp := hprobe s j (le_refl _)
    by_cases hmem : Slugify tbl title j ∈ E
    · rw [decide_eq_true hmem] at hp
      have hne : ∀ i : Int, j + 1 ≤ i → Slugify tbl title i ≠ Slugify tbl title j := by
        intro i hi heq
        have := Slugify_injective tbl title i j (by omega) hj heq
        omega
      have hcard' : (E.erase (Slugify tbl title j)).card ≤ n := by
        rw [Finset.card_erase_of_mem hmem]; omega
      have hprobe' : ∀ (s : σ) (i : Int), j + 1 ≤ i →
          (IsSlugExists db s (Slugify tbl title i)).2 =
            decide (Slugify tbl title i ∈ E.erase (Slugify tbl title j)) := by
        intro s i hi
        rw [hprobe s i (by omega)]
        congr 1
        simp [Finset.mem_erase, hne i hi]
      obtain ⟨s', k, hk, h1, h2, h3, h4⟩ :=
        ih (E.erase (Slugify tbl title j)) (j + 1) hcard' (by omega) hprobe' f (by omega)
          (IsSlugExists db s (Slugify tbl title j)).1
      refine ⟨s', k, ?_, by omega, by omega, ?_, ?_⟩
      · rw [slugLoop_succ, hp]; exact hk
      · intro hin
        exact h3 (Finset.mem_erase.mpr ⟨hne k h1, hin⟩)
      · intro i hi1 hi2
        by_cases hij : i = j
        · rw [hij]; exact hmem
        · exact Finset.mem_of_mem_erase (h4 i (by omega) hi2)
    · rw [decide_eq_false hmem] at hp
      refine ⟨(IsSlugExists db s (Slugify tbl title j)).1, j, ?_, le_refl _, by omega, hmem, ?_⟩
      · rw [slugLoop_succ, hp]; rfl
      · intro i h1 h2; omega

theorem IsSlugExists_of_select {σ : Type} (db : ArticleDb σ) (E : Finset GoString)
    (hprobe : ∀ (s : σ) (slug : GoString), (db.selectSlug s slug).2 =
      if slug ∈ E then Except.ok slug else Except.error PgxErr.ErrNoRows)
    (s : σ) (slug : GoString) : (IsSlugExists db s slug).2 = decide (slug ∈ E) := by
  have h := hprobe s slug
  unfold IsSlugExists
  split
  · rename_i s' err heq
    rw [heq] at h
    by_cases hm : slug ∈ E
    · rw [if_pos hm] at h; cases h
    · rw [if_neg hm] at h
      simp only [Except.error.injEq] at h
      subst h
      simp [hm]
  · rename_i s' x heq
    rw [heq] at h
    by_cases hm : slug ∈ E
    · simp [hm]
    · rw [if_neg hm] at h; cases h

/-- C1: for every title and every finite set `E` of existing slugs, when the
existence query answers membership in `E` without error, the slug loop of
`CreateArticleHandler` (entered with index `1` and `Slugify(T, 1)`) leaves
after at most `|E| + 1` iterations, and the slug it leaves with, `Slugify(T, k)`
with `1 ≤ k ≤ |E| + 1`, is not in `E`. -/
theorem alloc_terminates {σ : Type} (tbl : Char → Char) (db : ArticleDb σ) (title : GoString)
    (E : Finset GoString)
    (hprobe : ∀ (s : σ) (slug : GoString), (db.selectSlug s slug).2 =
      if slug ∈ E then Except.ok slug else Except.error PgxErr.ErrNoRows)
    (fuel : Nat) (hfuel : E.card + 1 ≤ fuel) (s : σ) :
    ∃ (s' : σ) (k : Int),
      slugLoop tbl db title fuel s 1 (Slugify tbl title 1) = some (s', k, Slugify tbl title k) ∧
        1 ≤ k ∧ k ≤ E.card + 1 ∧ Slugify tbl title k ∉ E := by
  obtain ⟨s', k, hk, h1, h2, h3, -⟩ :=
    slugLoop_finds tbl db title E.card E 1 (le_refl _) (by decide)
      (fun s i _ => IsSlugExists_of_select db E hprobe s _) fuel hfuel s
  exact ⟨s', k, hk, h1, by omega, h3⟩

/-- C1, at the title `a` with the slugs `a-1` and `a-2` taken: three
iterations are enough and the loop leaves with a slug outside the set. -/
theorem alloc_terminates_witness :
    (∀ (s : Unit) (slug : GoString),
        ((setDb {"a-1".toList, "a-2".toList}).selectSlug s slug).2 =
          if slug ∈ ({"a-1".toList, "a-2".toList} : Finset GoString) then Except.ok slug
          else Except.error PgxErr.ErrNoRows) ∧
      ({"a-1".toList, "a-2".toList} : Finset GoString).card + 1 ≤ 3 ∧
      ∃ (s' : Unit) (k : Int),
        slugLoop latin1Table (setDb {"a-1".toList, "a-2".toList}) "a".toList 3 () 1
            (Slugify latin1Table "a".toList 1) = some (s', k, Slugify latin1Table "a".toList k) ∧
          1 ≤ k ∧ k ≤ ({"a-1".toList, "a-2".toList} : Finset GoString).card + 1 ∧
          Slugify latin1Table "a".toList k ∉ ({"a-1".toList, "a-2".toList} : Finset GoString) :=
  ⟨fun _ _ => rfl, by decide,
    alloc_terminates latin1Table (setDb {"a-1".toList, "a-2".toList}) "a".toList
      {"a-1".toList, "a-2".toList} (fun _ _ => rfl) 3 (by decide) ()⟩

/-! ### Two creations in a row -/

/-- On a title of ASCII characters the case table is not consulted. -/
theorem Slugify_ascii_table (tbl tbl' : Char → Char) (title : GoString)
    (h : (title.all fun c => decide (c.toNat ≤ 0x7F)) = true) (i : Int) :
    Slugify tbl title i = Slugify tbl' title i := by
  have hlow : ToLower tbl title = ToLower tbl' title := by
    unfold ToLower
    apply List.map_congr_left
    intro c hc
    have hc' := List.all_eq_true.mp h c hc
    have hc'' : c.toNat ≤ 0x7F := of_decide_eq_true hc'
    simp only [toLowerRune, if_pos hc'']
  simp only [Slugify, normalizeTitle, hlow]

theorem memDb_exists_nofault (rows : List DBArticle) (slug : GoString) :
    IsSlugExists memDb { rows := rows, faults := [] } slug =
      ({ rows := rows, faults := [] }, rows.any (fun r => decide (r.Slug = slug))) := by
  simp only [IsSlugExists, memDb, List.tail_nil]
  cases h : rows.any (fun r => decide (r.Slug = slug)) <;> simp

theorem memDb_insert_nofault (rows : List DBArticle) (a : DBArticle)
    (h : rows.any (fun r => decide (r.Slug = a.Slug)) = false) :
    memDb.insertArticle { rows := rows, faults := [] } a =
      ({ rows := rows ++ [a], faults := [] }, none) := by
  simp only [memDb, List.tail_nil, h]
  simp

theorem any_slug_false (rows : List DBArticle) (slug : GoString)
    (h : ∀ r ∈ rows, r.Slug ≠ slug) : rows.any (fun r => decide (r.Slug = slug)) = false := by
  rw [List.any_eq_false]
  intro r hr
  simpa using h r hr

/-- C2: on a table that holds neither `Slugify(T, 1)` nor `Slugify(T, 2)`, with
no failing call and no other writer, two creations with title `T` in a row
both answer 201, the first with slug `Slugify(T, 1)` and the second with slug
`Slugify(T, 2)`, and the table gains exactly these two slugs in this order;
and for `T = "Hello World!"` the two slugs are `hello-world-1` and
`hello-world-2`. -/
theorem create_twice (tbl : Char → Char) (title : GoString) (rows : List DBArticle)
    (req1 req2 : CreateArticleRequest) (u1 u2 : GoString) (now1 now2 : Time)
    (fuel1 fuel2 : Nat) (ht1 : req1.Title = title) (ht2 : req2.Title = title)
    (h1 : ∀ r ∈ rows, r.Slug ≠ Slugify tbl title 1)
    (h2 : ∀ r ∈ rows, r.Slug ≠ Slugify tbl title 2)
    (hf1 : 1 ≤ fuel1) (hf2 : 2 ≤ fuel2) :
    (∃ (s1 s2 : MemDb) (a1 a2 : DBArticleResponseWithAuthorUsername),
      CreateArticleHandler tbl memDb fuel1 { rows := rows, faults := [] } (some u1) (some req1)
          now1 = some (s1, Response.created StatusCreated a1) ∧
        a1.Slug = Slugify tbl title 1 ∧
        CreateArticleHandler tbl memDb fuel2 s1 (some u2) (some req2) now2 =
          some (s2, Response.created StatusCreated a2) ∧
        a2.Slug = Slugify tbl title 2 ∧
        s2.rows.map DBArticle.Slug =
          rows.map DBArticle.Slug ++ [Slugify tbl title 1, Slugify tbl title 2]) ∧
      Slugify tbl "Hello World!".toList 1 = "hello-world-1".toList ∧
      Slugify tbl "Hello World!".toList 2 = "hello-world-2".toList := by
  have hello : ∀ i : Int, Slugify tbl "Hello World!".toList i =
      Slugify latin1Table "Hello World!".toList i :=
    fun i => Slugify_ascii_table tbl latin1Table _ (by decide) i
  refine ⟨?_, by rw [hello]; decide, by rw [hello]; decide⟩
  subst ht1
  obtain ⟨f1, rfl⟩ : ∃ f, fuel1 = f + 1 := ⟨fuel1 - 1, by omega⟩
  obtain ⟨f2, rfl⟩ : ∃ f, fuel2 = f + 2 := ⟨fuel2 - 2, by omega⟩
  have hne : Slugify tbl req1.Title 1 ≠ Slugify tbl req1.Title 2 := by
    intro h
    have := Slugify_injective tbl req1.Title 1 2 (by decide) (by decide) h
    omega
  -- the first creation
  have hloop1 : slugLoop tbl memDb req1.Title (f1 + 1) { rows := rows, faults := [] } 1
      (Slugify tbl req1.Title 1) =
      some ({ rows := rows, faults := [] }, 1, Slugify tbl req1.Title 1) := by
    rw [slugLoop_succ, memDb_exists_nofault, any_slug_false rows _ h1]
    rfl
  have hrun1 := CreateArticleHandler_run tbl memDb (f1 + 1) { rows := rows, faults := [] } u1
    req1 now1 _ _ _ hloop1
  rw [memDb_insert_nofault rows _ (any_slug_false rows _ h1)] at hrun1
  -- the second creation
  have hany1 : (rows ++ [newArticle (Slugify tbl req1.Title 1) req1 u1]).any
      (fun r => decide (r.Slug = Slugify tbl req1.Title 1)) = true := by
    simp [newArticle]
  have hany2 : (rows ++ [newArticle (Slugify tbl req1.Title 1) req1 u1]).any
      (fun r => decide (r.Slug = Slugify tbl req1.Title 2)) = false := by
    apply any_slug_false
    intro r hr
    rcases List.mem_append.mp hr with hr | hr
    · exact h2 r hr
    · rw [List.mem_singleton.mp hr]; exact hne
  have hloop2 : slugLoop tbl memDb req2.Title (f2 + 2)
      { rows := rows ++ [newArticle (Slugify tbl req1.Title 1) req1 u1], faults := [] } 1
      (Slugify tbl req2.Title 1) =
      some ({ rows := rows ++ [newArticle (Slugify tbl req1.Title 1) req1 u1], faults := [] },
        2, Slugify tbl req1.Title 2) := by
    rw [ht2, slugLoop_succ, memDb_exists_nofault, hany1, if_pos rfl]
    show slugLoop tbl memDb req1.Title (f2 + 1) _ 2 (Slugify tbl req1.Title 2) = _
    rw [slugLoop_succ, memDb_exists_nofault, hany2]
    rfl
  have hrun2 := CreateArticleHandler_run tbl memDb (f2 + 2) _ u2 req2 now2 _ _ _ hloop2
  rw [memDb_insert_nofault _ _ hany2] at hrun2
  exact ⟨_, _, _, _, hrun1, rfl, hrun2, rfl, by simp [newArticle]⟩

/-- C2, at the end-to-end scenario: `Hello World!` created twice by `alice` on
an empty table. -/
theorem create_twice_witness :
    (({ Title := "Hello World!".toList, Description := "d".toList, Body := "b".toList,
        TagList := ["x".toList] } : CreateArticleRequest).Title = "Hello World!".toList) ∧
      (∀ r ∈ ([] : List DBArticle), r.Slug ≠ Slugify latin1Table "Hello World!".toList 1) ∧
      (∀ r ∈ ([] : List DBArticle), r.Slug ≠ Slugify latin1Table "Hello World!".toList 2) ∧
      ((1 : Nat) ≤ 1 ∧ (2 : Nat) ≤ 2) ∧
      ((∃ (s1 s2 : MemDb) (a1 a2 : DBArticleResponseWithAuthorUsername),
        CreateArticleHandler latin1Table memDb 1 { rows := [], faults := [] }
            (some "alice".toList)
            (some { Title := "Hello World!".toList, Description := "d".toList,
                    Body := "b".toList, TagList := ["x".toList] }) 100 =
            some (s1, Response.created StatusCreated a1) ∧
          a1.Slug = Slugify latin1Table "Hello World!".toList 1 ∧
          CreateArticleHandler latin1Table memDb 2 s1 (some "alice".toList)
            (some { Title := "Hello World!".toList, Description := "d".toList,
                    Body := "b".toList, TagList := ["x".toList] }) 200 =
            some (s2, Response.created StatusCreated a2) ∧
          a2.Slug = Slugify latin1Table "Hello World!".toList 2 ∧
          s2.rows.map DBArticle.Slug =
            ([] : List DBArticle).map DBArticle.Slug ++
              [Slugify latin1Table "Hello World!".toList 1,
               Slugify latin1Table "Hello World!".toList 2]) ∧
        Slugify latin1Table "Hello World!".toList 1 = "hello-world-1".toList ∧
        Slugify latin1Table "Hello World!".toList 2 = "hello-world-2".toList) :=
  ⟨rfl, by simp, by simp, ⟨le_refl _, le_refl _⟩,
    create_twice latin1Table "Hello World!".toList [] _ _ "alice".toList "alice".toList 100 200
      1 2 rfl rfl (by simp) (by simp) (le_refl _) (le_refl _)⟩

/-! ### Failures of the store during creation -/

/-- C8, on the code: the first existence query fails with a storage error
(not "no rows") on an empty table; the handler does not abort but goes on to
index 2, inserts the article under `a-2` and answers 201. -/
theorem probe_error_not_aborting :
    CreateArticleHandler latin1Table memDb 2 { rows := [], faults := [some PgxErr.Other] }
        (some "alice".toList)
        (some { Title := "a".toList, Description := "d".toList, Body := "b".toList,
                TagList := [] }) 100 =
      some ({ rows := [{ Slug := "a-2".toList, Title := "a".toList, Description := "d".toList,
                         Body := "b".toList, TagList := [], CreatedAt := 0, UpdatedAt := 0,
                         FavoritesCount := 0, Author := "alice".toList }],
              faults := [] },
        Response.created 201
          { Slug := "a-2".toList, Title := "a".toList, Description := "d".toList,
            Body := "b".toList, TagList := [], CreatedAt := 100, UpdatedAt := 100,
            Favorited := false, FavoritesCount := 0, Author := "alice".toList }) := by
  decide

/-- C9, as the code has it: the existence query reports no rows, the insert
is rejected with a uniqueness violation, and the handler answers 422 without
trying index 2 (the table stays empty, no further call is made). -/
theorem unique_violation_is_an_error :
    CreateArticleHandler latin1Table memDb 5
        { rows := [], faults := [none, some PgxErr.UniqueViolation] }
        (some "alice".toList)
        (some { Title := "a".toList, Description := "d".toList, Body := "b".toList,
                TagList := [] }) 100 =
      some ({ rows := [], faults := [] },
        Response.error 422 "Failed to create article") := by
  decide

/-- C9 (amended): whenever the store rejects the insert of the chosen slug,
with a uniqueness violation or any other error, the handler answers 422
"Failed to create article"; the database is left as the rejected insert left
it, so nothing is retried. -/
theorem insert_error_no_retry {σ : Type} (tbl : Char → Char) (db : ArticleDb σ) (fuel : Nat)
    (s s1 s2 : σ) (username : GoString) (req : CreateArticleRequest) (now : Time)
    (k : Int) (slug : GoString) (err : PgxErr)
    (hloop : slugLoop tbl db req.Title fuel s 1 (Slugify tbl req.Title 1) = some (s1, k, slug))
    (hins : db.insertArticle s1 (newArticle slug req username) = (s2, some err)) :
    CreateArticleHandler tbl db fuel s (some username) (some req) now =
      some (s2, Response.error StatusUnprocessableEntity "Failed to create article") := by
  rw [CreateArticleHandler_run tbl db fuel s username req now s1 k slug hloop, hins]

/-- C9 (amended), at a run where the slug `a-1` is free at the time of the
query and taken at the time of the insert. -/
theorem insert_error_no_retry_witness :
    slugLoop latin1Table memDb "a".toList 5
        { rows := [], faults := [none, some PgxErr.UniqueViolation] } 1
        (Slugify latin1Table "a".toList 1) =
        some ({ rows := [], faults := [some PgxErr.UniqueViolation] }, 1, "a-1".toList) ∧
      memDb.insertArticle { rows := [], faults := [some PgxErr.UniqueViolation] }
        (newArticle "a-1".toList
          { Title := "a".toList, Description := "d".toList, Body := "b".toList, TagList := [] }
          "alice".toList) = ({ rows := [], faults := [] }, some PgxErr.UniqueViolation) ∧
      CreateArticleHandler latin1Table memDb 5
        { rows := [], faults := [none, some PgxErr.UniqueViolation] } (some "alice".toList)
        (some { Title := "a".toList, Description := "d".toList, Body := "b".toList,
                TagList := [] }) 100 =
        some ({ rows := [], faults := [] },
          Response.error StatusUnprocessableEntity "Failed to create article") :=
  ⟨by decide, by decide,
    insert_error_no_retry latin1Table memDb 5
      { rows := [], faults := [none, some PgxErr.UniqueViolation] }
      { rows := [], faults := [some PgxErr.UniqueViolation] }
      { rows := [], faults := [] } "alice".toList
      { Title := "a".toList, Description := "d".toList, Body := "b".toList, TagList := [] }
      100 1 "a-1".toList PgxErr.UniqueViolation (by decide) (by decide)⟩

/-! ### Base64 without padding: decoding undoes encoding -/

theorem shl_or (k y x : Nat) (h : x < 2 ^ k) : (y <<< k) ||| x = y * 2 ^ k + x := by
  rw [Nat.shiftLeft_eq, Nat.mul_comm, ← Nat.mul_add_lt_is_or h]

theorem and_3F (x : Nat) : x &&& 0x3F = x % 64 := Nat.and_pow_two_sub_one_eq_mod x 6

theorem quantumVal_eq (d0 d1 d2 d3 : Nat) (h1 : d1 < 64) (h2 : d2 < 64) (h3 : d3 < 64) :
    quantumVal d0 d1 d2 d3 = d0 * 262144 + d1 * 4096 + d2 * 64 + d3 := by
  have e3 : (d2 <<< 6) ||| d3 = d2 * 64 + d3 := shl_or 6 d2 d3 h3
  have e2 : (d1 <<< 12) ||| (d2 * 64 + d3) = d1 * 4096 + (d2 * 64 + d3) :=
    shl_or 12 d1 _ (by show _ < 4096; omega)
  have e1 : (d0 <<< 18) ||| (d1 * 4096 + (d2 * 64 + d3)) =
      d0 * 262144 + (d1 * 4096 + (d2 * 64 + d3)) :=
    shl_or 18 d0 _ (by show _ < 262144; omega)
  unfold quantumVal
  rw [Nat.or_assoc, Nat.or_assoc, e3, e2, e1]
  omega

theorem encVal3 (a b c : Nat) (hb : b < 256) (hc : c < 256) :
    ((a <<< 16) ||| (b <<< 8)) ||| c = a * 65536 + b * 256 + c := by
  have e2 : (b <<< 8) ||| c = b * 256 + c := shl_or 8 b c hc
  have e1 : (a <<< 16) ||| (b * 256 + c) = a * 65536 + (b * 256 + c) :=
    shl_or 16 a _ (by show _ < 65536; omega)
  rw [Nat.or_assoc, e2, e1]
  omega

theorem encVal2 (a b : Nat) (hb : b < 256) : (a <<< 16) ||| (b <<< 8) = a * 65536 + b * 256 := by
  have := encVal3 a b 0 hb (by decide)
  simpa using this

theorem sextet (x k : Nat) : (x >>> k) &&& 0x3F = x / 2 ^ k % 64 := by
  rw [and_3F, Nat.shiftRight_eq_div_pow]

theorem decodeMap_encodeChar (v : Nat) (h : v < 64) : decodeMap (encodeChar v) = some v := by
  interval_cases v <;> rfl

theorem toByte_eq (v : Nat) (a : Byte) (h : v % 256 = a.val) : toByte v = a :=
  Fin.ext h

/-- Four digits of the alphabet in a row are read as one quantum. -/
theorem decodeLoop_quantum (d0 d1 d2 d3 : Nat) (h0 : d0 < 64) (h1 : d1 < 64) (h2 : d2 < 64)
    (h3 : d3 < 64) (src : List Char) (out : List Byte) :
    decodeLoop (encodeChar d0 :: encodeChar d1 :: encodeChar d2 :: encodeChar d3 :: src) [] out =
      decodeLoop src []
        (out ++ [toByte (quantumVal d0 d1 d2 d3 >>> 16), toByte (quantumVal d0 d1 d2 d3 >>> 8),
          toByte (quantumVal d0 d1 d2 d3)]) := by
  simp only [decodeLoop, decodeMap_encodeChar _ h0, decodeMap_encodeChar _ h1,
    decodeMap_encodeChar _ h2, decodeMap_encodeChar _ h3, List.nil_append, List.cons_append]

/-- Decoding with `DecodeString` undoes `EncodeToString`, for every byte string, and reports
no error. -/
theorem decodeLoop_encode : ∀ (bs out : List Byte),
    decodeLoop (EncodeToString bs) [] out = (out ++ bs, false)
  | [], out => by simp [EncodeToString, decodeLoop]
  | [a], out => by
    have ha := a.isLt
    simp only [EncodeToString, and_3F, Nat.shiftRight_eq_div_pow, Nat.shiftLeft_eq]
    simp only [decodeLoop, decodeMap_encodeChar _ (Nat.mod_lt _ (by decide : 0 < 64)),
      List.nil_append, List.cons_append]
    rw [quantumVal_eq _ _ _ _ (Nat.mod_lt _ (by decide)) (by decide) (by decide)]
    simp only [Nat.shiftRight_eq_div_pow]
    congr 2
    rw [List.cons.injEq]
    refine ⟨toByte_eq _ _ ?_, rfl⟩
    norm_num
    omega
  | [a, b], out => by
    have ha := a.isLt
    have hb := b.isLt
    simp only [EncodeToString, encVal2 _ _ hb, and_3F, Nat.shiftRight_eq_div_pow]
    simp only [decodeLoop, decodeMap_encodeChar _ (Nat.mod_lt _ (by decide : 0 < 64)),
      List.nil_append, List.cons_append]
    rw [quantumVal_eq _ _ _ _ (Nat.mod_lt _ (by decide)) (Nat.mod_lt _ (by decide)) (by decide)]
    simp only [Nat.shiftRight_eq_div_pow]
    congr 2
    rw [List.cons.injEq, List.cons.injEq]
    refine ⟨toByte_eq _ _ ?_, toByte_eq _ _ ?_, rfl⟩
    · norm_num
      omega
    · norm_num
      omega
  | a :: b :: c :: rest, out => by
    have ha := a.isLt
    have hb := b.isLt
    have hc := c.isLt
    have ih := decodeLoop_encode rest (out ++ [a, b, c])
    simp only [EncodeToString, encVal3 _ _ _ hb hc, and_3F, Nat.shiftRight_eq_div_pow]
    rw [decodeLoop_quantum _ _ _ _ (Nat.mod_lt _ (by decide)) (Nat.mod_lt _ (by decide))
      (Nat.mod_lt _ (by decide)) (Nat.mod_lt _ (by decide))]
    rw [quantumVal_eq _ _ _ _ (Nat.mod_lt _ (by decide)) (Nat.mod_lt _ (by decide))
      (Nat.mod_lt _ (by decide))]
    simp only [Nat.shiftRight_eq_div_pow]
    have e1 : toByte (((a.val * 65536 + b.val * 256 + c.val) / 2 ^ 18 % 64 * 262144 +
        (a.val * 65536 + b.val * 256 + c.val) / 2 ^ 12 % 64 * 4096 +
        (a.val * 65536 + b.val * 256 + c.val) / 2 ^ 6 % 64 * 64 +
        (a.val * 65536 + b.val * 256 + c.val) % 64) / 2 ^ 16) = a := by
      apply toByte_eq
      norm_num
      omega
    have e2 : toByte (((a.val * 65536 + b.val * 256 + c.val) / 2 ^ 18 % 64 * 262144 +
        (a.val * 65536 + b.val * 256 + c.val) / 2 ^ 12 % 64 * 4096 +
        (a.val * 65536 + b.val * 256 + c.val) / 2 ^ 6 % 64 * 64 +
        (a.val * 65536 + b.val * 256 + c.val) % 64) / 2 ^ 8) = b := by
      apply toByte_eq
      norm_num
      omega
    have e3 : toByte ((a.val * 65536 + b.val * 256 + c.val) / 2 ^ 18 % 64 * 262144 +
        (a.val * 65536 + b.val * 256 + c.val) / 2 ^ 12 % 64 * 4096 +
        (a.val * 65536 + b.val * 256 + c.val) / 2 ^ 6 % 64 * 64 +
        (a.val * 65536 + b.val * 256 + c.val) % 64) = c := by
      apply toByte_eq
      norm_num
      omega
    rw [e1, e2, e3, ih]
    simp

theorem DecodeString_EncodeToString (bs : List Byte) :
    DecodeString (EncodeToString bs) = (bs, false) := by
  have := decodeLoop_encode bs []
  simpa [DecodeString] using this

/-! ### Passwords -/

/-- C10: for every secret, if `GeneratePasswd` succeeds and returns a hash
and a salt, `ComparePasswords` on the same secret with that hash and salt is
`true`, whatever function of its arguments the key derivation is. -/
theorem verify_derived
    (IDKey : List Byte → List Byte → Nat → Nat → Nat → Nat → List Byte)
    (rand : Except RandError (List Byte)) (pass : GoString) (p : PasswordObj)
    (h : GeneratePasswd IDKey rand pass = Except.ok p) :
    ComparePasswords IDKey pass p.Hash p.Salt = true := by
  unfold GeneratePasswd at h
  cases hs : generateSalt rand with
  | error err => rw [hs] at h; cases h
  | ok salt =>
    rw [hs] at h
    simp only [Except.ok.injEq] at h
    subst h
    simp [ComparePasswords, DecodeString_EncodeToString]

/-- C10, at the secret `hunter2` with the random source delivering the bytes
`1..16` and the stand-in key derivation. -/
theorem verify_derived_witness :
    GeneratePasswd sampleKDF (Except.ok [1, 2, 3, 4, 5, 6, 7, 8, 9, 10, 11, 12, 13, 14, 15, 16])
        "hunter2".toList =
        Except.ok { Hash := "aHVudGVyMgECAwQFBgcICQoLDA0ODxAAAAAAAAAAAAA".toList,
                    Salt := "AQIDBAUGBwgJCgsMDQ4PEA".toList } ∧
      ComparePasswords sampleKDF "hunter2".toList
        "aHVudGVyMgECAwQFBgcICQoLDA0ODxAAAAAAAAAAAAA".toList
        "AQIDBAUGBwgJCgsMDQ4PEA".toList = true :=
  ⟨rfl,
    verify_derived sampleKDF
      (Except.ok [1, 2, 3, 4, 5, 6, 7, 8, 9, 10, 11, 12, 13, 14, 15, 16]) "hunter2".toList
      { Hash := "aHVudGVyMgECAwQFBgcICQoLDA0ODxAAAAAAAAAAAAA".toList,
        Salt := "AQIDBAUGBwgJCgsMDQ4PEA".toList } rfl⟩

/-! ### Passwords: a salt that does not decode, and the sizes of a verifier -/

theorem ComparePasswords_iff
    (IDKey : List Byte → List Byte → Nat → Nat → Nat → Nat → List Byte)
    (passwd passwdDB salt : GoString) :
    ComparePasswords IDKey passwd passwdDB salt = true ↔
      passwdDB =
        EncodeToString (IDKey (toBytes passwd) (DecodeString salt).1 1 (64 * 1024) 4 32) := by
  unfold ComparePasswords
  constructor
  · intro h
    by_contra hne
    simp only [ne_eq] at h
    rw [if_pos (fun heq => hne heq.symm)] at h
    exact absurd h (by decide)
  · intro h
    simp [h]

/-- C11, as the code has it: the salt `!` is not valid base64 (`DecodeString`
returns no bytes and an error), and `ComparePasswords` answers `true` for the
stored hash that encodes the key derived with the empty salt; no key
derivation function makes `ComparePasswords` answer `false` on every salt
that fails to decode. -/
theorem bad_salt_can_match :
    DecodeString "!".toList = ([], true) ∧
      ComparePasswords sampleKDF "hunter2".toList
        "aHVudGVyMgAAAAAAAAAAAAAAAAAAAAAAAAAAAAAAAAA".toList "!".toList = true ∧
      ¬ ∃ IDKey : List Byte → List Byte → Nat → Nat → Nat → Nat → List Byte,
        ∀ passwd passwdDB salt : GoString, (DecodeString salt).2 = true →
          ComparePasswords IDKey passwd passwdDB salt = false := by
  refine ⟨by decide, by decide, ?_⟩
  rintro ⟨IDKey, h⟩
  have hfalse := h "hunter2".toList
    (EncodeToString (IDKey (toBytes "hunter2".toList) (DecodeString "!".toList).1 1
      (64 * 1024) 4 32)) "!".toList (by decide)
  have htrue := (ComparePasswords_iff IDKey "hunter2".toList _ "!".toList).mpr rfl
  rw [hfalse] at htrue
  exact absurd htrue (by decide)

/-- C11 (amended): for every candidate secret, stored hash and stored salt,
valid base64 or not, `ComparePasswords` is `true` exactly when the stored hash
is the unpadded base64 of the key derived from the candidate and the bytes
`DecodeString` returns for the salt (for a salt that fails to decode, the
bytes of the quanta before the error); so with a salt that fails to decode it
is `false` for every stored hash but that one. -/
theorem compare_uses_decoded_bytes
    (IDKey : List Byte → List Byte → Nat → Nat → Nat → Nat → List Byte)
    (passwd passwdDB salt : GoString) :
    (ComparePasswords IDKey passwd passwdDB salt = true ↔
        passwdDB =
          EncodeToString
            (IDKey (toBytes passwd) (DecodeString salt).1 1 (64 * 1024) 4 32)) ∧
      (∀ other : GoString, ComparePasswords IDKey passwd passwdDB salt = true →
        ComparePasswords IDKey passwd other salt = true → other = passwdDB) := by
  refine ⟨ComparePasswords_iff IDKey passwd passwdDB salt, ?_⟩
  intro other h1 h2
  rw [ComparePasswords_iff] at h1 h2
  rw [h1, h2]

theorem encodeChar_mem (v : Nat) (h : v < 64) : encodeChar v ∈ encodeStd := by
  interval_cases v <;> decide

theorem EncodeToString_length : ∀ bs : List Byte,
    (EncodeToString bs).length = (bs.length * 4 + 2) / 3
  | [] => rfl
  | [_] => by simp [EncodeToString]
  | [_, _] => by simp [EncodeToString]
  | a :: b :: c :: rest => by
    have ih := EncodeToString_length rest
    simp only [EncodeToString, List.length_cons, ih]
    omega

theorem EncodeToString_mem : ∀ (bs : List Byte) (x : Char),
    x ∈ EncodeToString bs → x ∈ encodeStd
  | [], x, h => by simp [EncodeToString] at h
  | [a], x, h => by
    simp only [EncodeToString, and_3F, List.mem_cons, List.mem_singleton, List.not_mem_nil,
      or_false] at h
    rcases h with h | h <;> (rw [h]; exact encodeChar_mem _ (Nat.mod_lt _ (by decide)))
  | [a, b], x, h => by
    simp only [EncodeToString, and_3F, List.mem_cons, List.mem_singleton, List.not_mem_nil,
      or_false] at h
    rcases h with h | h | h <;> (rw [h]; exact encodeChar_mem _ (Nat.mod_lt _ (by decide)))
  | a :: b :: c :: rest, x, h => by
    simp only [EncodeToString, and_3F, List.mem_cons] at h
    rcases h with h | h | h | h | h
    · rw [h]; exact encodeChar_mem _ (Nat.mod_lt _ (by decide))
    · rw [h]; exact encodeChar_mem _ (Nat.mod_lt _ (by decide))
    · rw [h]; exact encodeChar_mem _ (Nat.mod_lt _ (by decide))
    · rw [h]; exact encodeChar_mem _ (Nat.mod_lt _ (by decide))
    · exact EncodeToString_mem rest x h

theorem EncodeToString_no_pad (bs : List Byte) : '=' ∉ EncodeToString bs := by
  intro h
  have := EncodeToString_mem bs '=' h
  revert this
  decide

theorem generateSalt_length (rand : Except RandError (List Byte)) (salt : List Byte)
    (h : generateSalt rand = Except.ok salt) : salt.length = 16 := by
  unfold generateSalt at h
  cases rand with
  | error err => cases h
  | ok written =>
    simp only [Except.ok.injEq] at h
    rw [← h]
    simp only [List.length_take, List.length_append, List.length_drop, List.length_replicate]
    omega

/-- C12: when `GeneratePasswd` succeeds (and the key derivation returns the
32 bytes it is asked for), the salt is the unpadded base64 of 16 bytes and the
hash the unpadded base64 of 32 bytes; the salt has 22 characters, the hash 43,
and neither contains `=`. -/
theorem verifier_sizes
    (IDKey : List Byte → List Byte → Nat → Nat → Nat → Nat → List Byte)
    (rand : Except RandError (List Byte)) (pass : GoString) (p : PasswordObj)
    (hlen : ∀ password salt : List Byte, (IDKey password salt 1 (64 * 1024) 4 32).length = 32)
    (h : GeneratePasswd IDKey rand pass = Except.ok p) :
    (∃ salt : List Byte, salt.length = 16 ∧ p.Salt = EncodeToString salt) ∧
      (∃ key : List Byte, key.length = 32 ∧ p.Hash = EncodeToString key) ∧
      p.Salt.length = 22 ∧ p.Hash.length = 43 ∧ '=' ∉ p.Salt ∧ '=' ∉ p.Hash := by
  unfold GeneratePasswd at h
  cases hs : generateSalt rand with
  | error err => rw [hs] at h; cases h
  | ok salt =>
    rw [hs] at h
    simp only [Except.ok.injEq] at h
    subst h
    have hsalt := generateSalt_length rand salt hs
    have hkey := hlen (toBytes pass) salt
    refine ⟨⟨salt, hsalt, rfl⟩, ⟨_, hkey, rfl⟩, ?_, ?_, EncodeToString_no_pad _,
      EncodeToString_no_pad _⟩
    · show (EncodeToString salt).length = 22
      rw [EncodeToString_length, hsalt]
    · show (EncodeToString _).length = 43
      rw [EncodeToString_length, hkey]

theorem sampleKDF_length (password salt : List Byte) (time memory threads keyLen : Nat) :
    (sampleKDF password salt time memory threads keyLen).length = keyLen := by
  simp only [sampleKDF, List.length_take, List.length_append, List.length_replicate]
  omega

/-- C12, at the secret `hunter2` with the random source delivering the bytes
`1..16` and the stand-in key derivation. -/
theorem verifier_sizes_witness :
    (∀ password salt : List Byte, (sampleKDF password salt 1 (64 * 1024) 4 32).length = 32) ∧
      GeneratePasswd sampleKDF
          (Except.ok [1, 2, 3, 4, 5, 6, 7, 8, 9, 10, 11, 12, 13, 14, 15, 16])
          "hunter2".toList =
        Except.ok { Hash := "aHVudGVyMgECAwQFBgcICQoLDA0ODxAAAAAAAAAAAAA".toList,
                    Salt := "AQIDBAUGBwgJCgsMDQ4PEA".toList } ∧
      "AQIDBAUGBwgJCgsMDQ4PEA".toList.length = 22 ∧
      "aHVudGVyMgECAwQFBgcICQoLDA0ODxAAAAAAAAAAAAA".toList.length = 43 :=
  ⟨fun password salt => sampleKDF_length password salt 1 (64 * 1024) 4 32, rfl,
    (verifier_sizes sampleKDF
      (Except.ok [1, 2, 3, 4, 5, 6, 7, 8, 9, 10, 11, 12, 13, 14, 15, 16]) "hunter2".toList
      { Hash := "aHVudGVyMgECAwQFBgcICQoLDA0ODxAAAAAAAAAAAAA".toList,
        Salt := "AQIDBAUGBwgJCgsMDQ4PEA".toList }
      (fun password salt => sampleKDF_length password salt 1 (64 * 1024) 4 32) rfl).2.2.1,
    (verifier_sizes sampleKDF
      (Except.ok [1, 2, 3, 4, 5, 6, 7, 8, 9, 10, 11, 12, 13, 14, 15, 16]) "hunter2".toList
      { Hash := "aHVudGVyMgECAwQFBgcICQoLDA0ODxAAAAAAAAAAAAA".toList,
        Salt := "AQIDBAUGBwgJCgsMDQ4PEA".toList }
      (fun password salt => sampleKDF_length password salt 1 (64 * 1024) 4 32) rfl).2.2.2.1⟩

/-! ### The symmetric key at startup -/

/-- C13: `security.Init(key)` returns an error exactly when the byte length
of `key` is not 32; when it returns no error the package key is the bytes of
`key` (and when it returns an error the package key is left as it was). -/
theorem init_key_length (pasetoSymmetricKey : List Byte) (key : ByteString) :
    ((security.Init pasetoSymmetricKey key).2 ≠ none ↔ key.length ≠ 32) ∧
      ((security.Init pasetoSymmetricKey key).2 = none →
        (security.Init pasetoSymmetricKey key).1 = key) ∧
      ((security.Init pasetoSymmetricKey key).2 ≠ none →
        (security.Init pasetoSymmetricKey key).1 = pasetoSymmetricKey) := by
  unfold security.Init
  by_cases h : key.length ≠ 32
  · simp [h]
  · simp [h]

/-- C14, on the code: with `JWT_SECRET=short` (5 bytes), a `DB_URL` and a pool
that opens, `app.Init` does not panic: it returns the router and the package
key is still unset.  With `JWT_SECRET` absent it panics whatever the rest. -/
theorem short_secret_starts :
    app.Init [] (bytesOf "short") (bytesOf "postgres://db") (fun _ => none) =
        ([], InitOutcome.handler) ∧
      ∀ (cur DB_URL : ByteString) (poolNew : ByteString → Option String),
        app.Init cur [] DB_URL poolNew = (cur, InitOutcome.panic "JWT_SECRET is not set") := by
  refine ⟨by decide, ?_⟩
  intro cur DB_URL poolNew
  simp [app.Init]

/-! ### Tokens -/

theorem Get_Set (t : JSONToken) (key value : GoString) : (t.Set key value).Get key = value := by
  simp [JSONToken.Get, JSONToken.Set, List.lookup]

theorem mintedToken_Expiration (now : Time) (rand : Except RandError (List Byte))
    (userUID : GoString) :
    (mintedToken now rand userUID).Expiration = now + 604800 * Second := by
  show (now + 3600 * Second * 24 * 7 : Int) = now + 604800 * Second
  ring

theorem wholeSeconds_le (t : Time) : wholeSeconds t ≤ t :=
  Int.ediv_mul_le t (by decide : Second ≠ 0)

theorem lt_wholeSeconds_add_Second (t : Time) : t < wholeSeconds t + Second := by
  have h : t < (t / Second + 1) * Second :=
    Int.lt_ediv_add_one_mul_self t (by decide : (0 : Int) < Second)
  have e : (t / Second + 1) * Second = t / Second * Second + Second := by ring
  rw [e] at h
  exact h

theorem carried_Expiration (payload : JSONToken) :
    (carried payload).Expiration = wholeSeconds payload.Expiration := rfl

theorem carried_Get (payload : JSONToken) (key : GoString) :
    (carried payload).Get key = payload.Get key := rfl

/-- The key of 32 bytes used in concrete runs. -/
theorem sampleKey_length : (bytesOf "0123456789abcdef0123456789abcdef").length = 32 := by
  decide

/-- C15, as worded, fails in the last fraction of a second: the key is
installed by a successful `security.Init`, the scheme encrypts the payload
minted for `u1` at 0.9 s and decrypts the token to that payload as the token
library carries it, and decoding 604799.5 s later, which is less than 7 days
after minting, returns the empty user id and "Token expired". -/
theorem decode_generated_last_second :
    security.Init [] (bytesOf "0123456789abcdef0123456789abcdef") =
        (bytesOf "0123456789abcdef0123456789abcdef", none) ∧
      (sampleV2 (bytesOf "0123456789abcdef0123456789abcdef") (bytesOf "v2.local.one")
          (carried (mintedToken 900000000 (Except.error RandError.readFailed)
            "u1".toList))).Encrypt
          (bytesOf "0123456789abcdef0123456789abcdef")
          (mintedToken 900000000 (Except.error RandError.readFailed) "u1".toList)
          PasetoFooter = Except.ok (bytesOf "v2.local.one") ∧
      ((604800400000000 : Time) < 900000000 + 7 * 24 * Hour) ∧
      DecodeToken
          (sampleV2 (bytesOf "0123456789abcdef0123456789abcdef") (bytesOf "v2.local.one")
            (carried (mintedToken 900000000 (Except.error RandError.readFailed)
              "u1".toList)))
          (bytesOf "0123456789abcdef0123456789abcdef") 604800400000000
          (GenerateToken
            (sampleV2 (bytesOf "0123456789abcdef0123456789abcdef") (bytesOf "v2.local.one")
              (carried (mintedToken 900000000 (Except.error RandError.readFailed)
                "u1".toList)))
            (bytesOf "0123456789abcdef0123456789abcdef") 900000000
            (Except.error RandError.readFailed) "u1".toList) =
        ([], some DecodeErr.expired) :=
  ⟨by decide, rfl, by decide, rfl⟩

/-- C15, amended: with a key installed by a successful `security.Init`, and a
token scheme that under a key of 32 bytes encrypts the minted payload and
decrypts the result under the same key to that payload with its times cut to
whole seconds, `DecodeToken` of the token `GenerateToken(u)` minted at `t`
returns `u` and no error at every time up to the whole second of `t` plus 7
days, and the empty user id with "Token expired" at every later time; so it
returns `u` whenever decoding happens at most 7 days less one second after
minting. -/
theorem decode_generated_carried (v2 : PasetoV2) (cur : List Byte) (k : ByteString)
    (key : List Byte) (t t' : Time) (rand : Except RandError (List Byte)) (u : GoString)
    (hinit : security.Init cur k = (key, none))
    (hscheme : key.length = 32 → ∃ (tok footer : ByteString),
      v2.Encrypt key (mintedToken t rand u) PasetoFooter = Except.ok tok ∧
        v2.Decrypt tok key = Except.ok (carried (mintedToken t rand u), footer)) :
    (t' ≤ wholeSeconds (t + 604800 * Second) →
        DecodeToken v2 key t' (GenerateToken v2 key t rand u) = (u, none)) ∧
      (wholeSeconds (t + 604800 * Second) < t' →
        DecodeToken v2 key t' (GenerateToken v2 key t rand u) =
          ([], some DecodeErr.expired)) ∧
      (t' + Second ≤ t + 604800 * Second →
        DecodeToken v2 key t' (GenerateToken v2 key t rand u) = (u, none)) := by
  have hkey : key.length = 32 := by
    unfold security.Init at hinit
    by_cases h : k.length ≠ 32
    · rw [if_pos h] at hinit; cases hinit
    · rw [if_neg h] at hinit
      simp only [Prod.mk.injEq, and_true] at hinit
      rw [← hinit]
      exact not_not.mp h
  obtain ⟨tok, footer, henc, hdec⟩ := hscheme hkey
  have hexp : (carried (mintedToken t rand u)).Expiration =
      wholeSeconds (t + 604800 * Second) := by
    rw [carried_Expiration, mintedToken_Expiration]
  have huid : (carried (mintedToken t rand u)).Get "uid".toList = u := by
    rw [carried_Get]
    unfold mintedToken
    exact Get_Set _ _ _
  have hin : t' ≤ wholeSeconds (t + 604800 * Second) →
      DecodeToken v2 key t' (GenerateToken v2 key t rand u) = (u, none) := by
    intro hle
    have hno : ¬ (carried (mintedToken t rand u)).Expiration < t' := by
      rw [hexp]
      exact not_lt.mpr hle
    simp only [GenerateToken, henc, DecodeToken, hdec, if_neg hno, huid]
  refine ⟨hin, ?_, ?_⟩
  · intro hlt
    have hyes : (carried (mintedToken t rand u)).Expiration < t' := by
      rw [hexp]
      exact hlt
    simp only [GenerateToken, henc, DecodeToken, hdec, if_pos hyes]
  · intro hle
    apply hin
    have h1 := lt_wholeSeconds_add_Second (t + 604800 * Second)
    have h2 : t' + Second < wholeSeconds (t + 604800 * Second) + Second :=
      lt_of_le_of_lt hle h1
    exact le_of_lt (lt_of_add_lt_add_right h2)

/-- C15, amended, for the user `u1` minted at 0.9 s with the one-token
scheme: decoded 7 days less one second after minting it returns `u1`, and
decoded 604799.5 s after minting it returns "Token expired". -/
theorem decode_generated_carried_witness :
    security.Init [] (bytesOf "0123456789abcdef0123456789abcdef") =
        (bytesOf "0123456789abcdef0123456789abcdef", none) ∧
      DecodeToken
          (sampleV2 (bytesOf "0123456789abcdef0123456789abcdef") (bytesOf "v2.local.one")
            (carried (mintedToken 900000000 (Except.error RandError.readFailed)
              "u1".toList)))
          (bytesOf "0123456789abcdef0123456789abcdef") 604799900000000
          (GenerateToken
            (sampleV2 (bytesOf "0123456789abcdef0123456789abcdef") (bytesOf "v2.local.one")
              (carried (mintedToken 900000000 (Except.error RandError.readFailed)
                "u1".toList)))
            (bytesOf "0123456789abcdef0123456789abcdef") 900000000
            (Except.error RandError.readFailed) "u1".toList) =
        ("u1".toList, none) ∧
      DecodeToken
          (sampleV2 (bytesOf "0123456789abcdef0123456789abcdef") (bytesOf "v2.local.one")
            (carried (mintedToken 900000000 (Except.error RandError.readFailed)
              "u1".toList)))
          (bytesOf "0123456789abcdef0123456789abcdef") 604800400000000
          (GenerateToken
            (sampleV2 (bytesOf "0123456789abcdef0123456789abcdef") (bytesOf "v2.local.one")
              (carried (mintedToken 900000000 (Except.error RandError.readFailed)
                "u1".toList)))
            (bytesOf "0123456789abcdef0123456789abcdef") 900000000
            (Except.error RandError.readFailed) "u1".toList) =
        ([], some DecodeErr.expired) :=
  ⟨by decide,
    (decode_generated_carried _ [] (bytesOf "0123456789abcdef0123456789abcdef")
      (bytesOf "0123456789abcdef0123456789abcdef") 900000000 604799900000000
      (Except.error RandError.readFailed) "u1".toList (by decide)
      (fun _ => ⟨bytesOf "v2.local.one", PasetoFooter, rfl, rfl⟩)).2.2 (by decide),
    (decode_generated_carried _ [] (bytesOf "0123456789abcdef0123456789abcdef")
      (bytesOf "0123456789abcdef0123456789abcdef") 900000000 604800400000000
      (Except.error RandError.readFailed) "u1".toList (by decide)
      (fun _ => ⟨bytesOf "v2.local.one", PasetoFooter, rfl, rfl⟩)).2.1 (by decide)⟩

/-- C16: when `Decrypt` succeeds, `DecodeToken` returns the empty user id and
the error "Token expired" if the payload's expiration is before the current
time, and the payload's `uid` claim with no error otherwise; when `Decrypt`
fails it returns the empty user id and that error. -/
theorem decode_cases (v2 : PasetoV2) (key : List Byte) (now : Time) (token : ByteString) :
    (∀ (payload : JSONToken) (footer : ByteString),
        v2.Decrypt token key = Except.ok (payload, footer) → payload.Expiration < now →
        DecodeToken v2 key now token = ([], some DecodeErr.expired)) ∧
      (∀ (payload : JSONToken) (footer : ByteString),
        v2.Decrypt token key = Except.ok (payload, footer) → ¬ payload.Expiration < now →
        DecodeToken v2 key now token = (payload.Get "uid".toList, none)) ∧
      (∀ err : PasetoErr, v2.Decrypt token key = Except.error err →
        DecodeToken v2 key now token = ([], some (DecodeErr.crypto err))) := by
  refine ⟨?_, ?_, ?_⟩
  · intro payload footer hdec hexp
    simp only [DecodeToken, hdec, if_pos hexp]
  · intro payload footer hdec hexp
    simp only [DecodeToken, hdec, if_neg hexp]
  · intro err hdec
    simp only [DecodeToken, hdec]

/-- C17: `GenerateToken(u)` at time `t` hands to `Encrypt` the package key, a
payload with issued-at `t`, not-before `t`, expiration `t` plus 604800
seconds, audience
`test`, issuer `test_service`, subject `test_subject` and custom claim
`uid = u`, and a footer of one space. -/
theorem minted_payload (t : Time) (rand : Except RandError (List Byte)) (u : GoString) :
    (∀ (v2 : PasetoV2) (key : List Byte),
        GenerateToken v2 key t rand u =
          match v2.Encrypt key (mintedToken t rand u) (bytesOf " ") with
          | .ok encrypt => encrypt
          | .error _ => []) ∧
      (mintedToken t rand u).IssuedAt = t ∧
      (mintedToken t rand u).NotBefore = t ∧
      (mintedToken t rand u).Expiration = t + 604800 * Second ∧
      (mintedToken t rand u).Audience = "test".toList ∧
      (mintedToken t rand u).Issuer = "test_service".toList ∧
      (mintedToken t rand u).Subject = "test_subject".toList ∧
      (mintedToken t rand u).Get "uid".toList = u := by
  refine ⟨fun v2 key => rfl, rfl, rfl, mintedToken_Expiration t rand u, rfl, rfl, rfl, ?_⟩
  unfold mintedToken
  exact Get_Set _ _ _

/-! ### The authentication middleware -/

/-- C18: with no `Authorization` header (or an empty one) the middleware
answers 401 with the message "Authorization header is required", calls
neither `DecodeToken` nor `GetToken`, and does not call the next handler. -/
theorem no_header_rejected (v2 : PasetoV2) (key : List Byte) (query : ByteString → TokenQuery)
    (now1 now2 : Time) :
    AuthMiddleware v2 key query now1 now2 [] =
      ([], AuthResult.rejected
        { contentType := "application/json", status := 401,
          body := { Body := ["Authorization header is required"] } }) := by
  simp [AuthMiddleware, HandleError, NewError, StatusUnauthorized]

/-- C19, as the code has it: for the header `Bearer abc` the token string
handed to `DecodeToken` is ` abc`, with the space, not `abc`, and the request
is rejected although `abc` is a token the scheme decrypts and the session
table holds; the header `Token abc` is the one that passes. -/
theorem bearer_keeps_a_space :
    AuthMiddleware sampleScheme sampleKey sampleQuery 2000 2000 (bytesOf "Bearer abc") =
        ([AuthCall.DecodeToken (bytesOf " abc")],
          AuthResult.rejected (HandleError "Invalid or expired token" 401)) ∧
      bytesOf " abc" ≠ bytesOf "abc" ∧
      AuthMiddleware sampleScheme sampleKey sampleQuery 2000 2000 (bytesOf "Token abc") =
        ([AuthCall.DecodeToken (bytesOf "abc"), AuthCall.GetToken (bytesOf "abc")],
          AuthResult.next "u1".toList) := by
  decide

theorem AuthMiddleware_calls (v2 : PasetoV2) (key : List Byte)
    (query : ByteString → TokenQuery) (now1 now2 : Time) (authHeader : ByteString)
    (h : 6 ≤ authHeader.length) :
    (AuthMiddleware v2 key query now1 now2 authHeader).1 =
        [AuthCall.DecodeToken (authHeader.drop 6)] ∨
      (AuthMiddleware v2 key query now1 now2 authHeader).1 =
        [AuthCall.DecodeToken (authHeader.drop 6), AuthCall.GetToken (authHeader.drop 6)] := by
  have hne : authHeader ≠ [] := by
    intro h0; rw [h0] at h; simp at h
  have hlen : ¬ authHeader.length < 6 := by omega
  simp only [AuthMiddleware, if_neg hne, if_neg hlen]
  split
  · left; rfl
  · split
    · right; rfl
    · split <;> (right; rfl)

/-- C19 (amended): for every `Authorization` header of at least 6 bytes, the
token string that the middleware passes to `DecodeToken`, and to `GetToken`
when it gets that far, is the header with its first 6 bytes removed; so for
the header `Token ` followed by `T` it is `T`, and for the header `Bearer `
followed by `T` it is a space followed by `T`. -/
theorem token_string_from_byte_6 (v2 : PasetoV2) (key : List Byte)
    (query : ByteString → TokenQuery) (now1 now2 : Time) (authHeader : ByteString)
    (h : 6 ≤ authHeader.length) :
    ((AuthMiddleware v2 key query now1 now2 authHeader).1 =
          [AuthCall.DecodeToken (authHeader.drop 6)] ∨
        (AuthMiddleware v2 key query now1 now2 authHeader).1 =
          [AuthCall.DecodeToken (authHeader.drop 6), AuthCall.GetToken (authHeader.drop 6)]) ∧
      (∀ T : ByteString,
        (AuthMiddleware v2 key query now1 now2 (bytesOf "Token " ++ T)).1.head? =
          some (AuthCall.DecodeToken T)) ∧
      (∀ T : ByteString,
        (AuthMiddleware v2 key query now1 now2 (bytesOf "Bearer " ++ T)).1.head? =
          some (AuthCall.DecodeToken (bytesOf " " ++ T))) := by
  refine ⟨AuthMiddleware_calls v2 key query now1 now2 authHeader h, ?_, ?_⟩
  · intro T
    have hlen : 6 ≤ (bytesOf "Token " ++ T).length := by
      rw [List.length_append]
      have : (bytesOf "Token ").length = 6 := by decide
      omega
    have hdrop : (bytesOf "Token " ++ T).drop 6 = T := by
      have : bytesOf "Token " = [84, 111, 107, 101, 110, 32] := by decide
      rw [this]; rfl
    rcases AuthMiddleware_calls v2 key query now1 now2 _ hlen with hc | hc <;>
      rw [hc, hdrop] <;> rfl
  · intro T
    have hlen : 6 ≤ (bytesOf "Bearer " ++ T).length := by
      rw [List.length_append]
      have : (bytesOf "Bearer ").length = 7 := by decide
      omega
    have hdrop : (bytesOf "Bearer " ++ T).drop 6 = bytesOf " " ++ T := by
      have h1 : bytesOf "Bearer " = [66, 101, 97, 114, 101, 114, 32] := by decide
      have h2 : bytesOf " " = [32] := by decide
      rw [h1, h2]; rfl
    rcases AuthMiddleware_calls v2 key query now1 now2 _ hlen with hc | hc <;>
      rw [hc, hdrop] <;> rfl

/-- C19 (amended), at the header `Token abc` with the concrete scheme and
session table. -/
theorem token_string_from_byte_6_witness :
    6 ≤ (bytesOf "Token abc").length ∧
      (bytesOf "Token abc").drop 6 = bytesOf "abc" ∧
      ((AuthMiddleware sampleScheme sampleKey sampleQuery 2000 2000 (bytesOf "Token abc")).1 =
          [AuthCall.DecodeToken ((bytesOf "Token abc").drop 6)] ∨
        (AuthMiddleware sampleScheme sampleKey sampleQuery 2000 2000 (bytesOf "Token abc")).1 =
          [AuthCall.DecodeToken ((bytesOf "Token abc").drop 6),
            AuthCall.GetToken ((bytesOf "Token abc").drop 6)]) :=
  ⟨by decide, by decide,
    (token_string_from_byte_6 sampleScheme sampleKey sampleQuery 2000 2000
      (bytesOf "Token abc") (by decide)).1⟩

/-- C20, on the code: for the header `abc` the slice expression
`authHeader[6:]` is out of range and the function panics, without a response;
the same happens for every non-empty header of fewer than 6 bytes. -/
theorem short_header_panics :
    AuthMiddleware sampleScheme sampleKey sampleQuery 2000 2000 (bytesOf "abc") =
        ([], AuthResult.panic) ∧
      ∀ (v2 : PasetoV2) (key : List Byte) (query : ByteString → TokenQuery)
        (now1 now2 : Time) (authHeader : ByteString),
        authHeader ≠ [] → authHeader.length < 6 →
        AuthMiddleware v2 key query now1 now2 authHeader = ([], AuthResult.panic) := by
  refine ⟨by decide, ?_⟩
  intro v2 key query now1 now2 authHeader hne hlen
  simp only [AuthMiddleware, if_neg hne, if_pos hlen]

theorem AuthMiddleware_of_decode_error (v2 : PasetoV2) (key : List Byte)
    (query : ByteString → TokenQuery) (now1 now2 : Time) (authHeader : ByteString)
    (hlen : 6 ≤ authHeader.length) (uid : GoString) (e : DecodeErr)
    (hdec : DecodeToken v2 key now1 (authHeader.drop 6) = (uid, some e)) :
    AuthMiddleware v2 key query now1 now2 authHeader =
      ([AuthCall.DecodeToken (authHeader.drop 6)],
        AuthResult.rejected (HandleError "Invalid or expired token" StatusUnauthorized)) := by
  have hne : authHeader ≠ [] := by
    intro h0; rw [h0] at hlen; simp at hlen
  have hlt : ¬ authHeader.length < 6 := by omega
  simp only [AuthMiddleware, if_neg hne, if_neg hlt, hdec]

theorem AuthMiddleware_of_get_error (v2 : PasetoV2) (key : List Byte)
    (query : ByteString → TokenQuery) (now1 now2 : Time) (authHeader : ByteString)
    (hlen : 6 ≤ authHeader.length) (uid : GoString) (e : GetTokenErr)
    (hdec : DecodeToken v2 key now1 (authHeader.drop 6) = (uid, none))
    (hget : GetToken query (authHeader.drop 6) = Except.error e) :
    AuthMiddleware v2 key query now1 now2 authHeader =
      ([AuthCall.DecodeToken (authHeader.drop 6), AuthCall.GetToken (authHeader.drop 6)],
        AuthResult.rejected (HandleError "Failed to validate token" StatusUnauthorized)) := by
  have hne : authHeader ≠ [] := by
    intro h0; rw [h0] at hlen; simp at hlen
  have hlt : ¬ authHeader.length < 6 := by omega
  simp only [AuthMiddleware, if_neg hne, if_neg hlt, hdec, hget]

theorem AuthMiddleware_of_bad_record (v2 : PasetoV2) (key : List Byte)
    (query : ByteString → TokenQuery) (now1 now2 : Time) (authHeader : ByteString)
    (hlen : 6 ≤ authHeader.length) (uid : GoString) (record : UserAuthToken)
    (hdec : DecodeToken v2 key now1 (authHeader.drop 6) = (uid, none))
    (hget : GetToken query (authHeader.drop 6) = Except.ok record)
    (hbad : record.UID ≠ uid ∨ ¬ now2 < record.EndDate) :
    AuthMiddleware v2 key query now1 now2 authHeader =
      ([AuthCall.DecodeToken (authHeader.drop 6), AuthCall.GetToken (authHeader.drop 6)],
        AuthResult.rejected (HandleError "Invalid or expired token" StatusUnauthorized)) := by
  have hne : authHeader ≠ [] := by
    intro h0; rw [h0] at hlen; simp at hlen
  have hlt : ¬ authHeader.length < 6 := by omega
  simp only [AuthMiddleware, if_neg hne, if_neg hlt, hdec, hget, if_pos hbad]

theorem AuthMiddleware_of_good_record (v2 : PasetoV2) (key : List Byte)
    (query : ByteString → TokenQuery) (now1 now2 : Time) (authHeader : ByteString)
    (hlen : 6 ≤ authHeader.length) (uid : GoString) (record : UserAuthToken)
    (hdec : DecodeToken v2 key now1 (authHeader.drop 6) = (uid, none))
    (hget : GetToken query (authHeader.drop 6) = Except.ok record)
    (huid : record.UID = uid) (hend : now2 < record.EndDate) :
    AuthMiddleware v2 key query now1 now2 authHeader =
      ([AuthCall.DecodeToken (authHeader.drop 6), AuthCall.GetToken (authHeader.drop 6)],
        AuthResult.next uid) := by
  have hne : authHeader ≠ [] := by
    intro h0; rw [h0] at hlen; simp at hlen
  have hlt : ¬ authHeader.length < 6 := by omega
  have hgood : ¬ (record.UID ≠ uid ∨ ¬ now2 < record.EndDate) := by
    intro h
    rcases h with h | h
    · exact h huid
    · exact h hend
  simp only [AuthMiddleware, if_neg hne, if_neg hlt, hdec, hget, if_neg hgood]
  rw [huid]

/-- C21: when the token string decodes to `uid` and the session record is
found, and the record's user id differs from `uid` or its expiration is not
strictly after the current time (equal to it included), the middleware answers
401 "Invalid or expired token" and does not call the next handler. -/
theorem record_mismatch_rejected (v2 : PasetoV2) (key : List Byte)
    (query : ByteString → TokenQuery) (now1 now2 : Time) (authHeader : ByteString)
    (uid : GoString) (record : UserAuthToken)
    (hlen : 6 ≤ authHeader.length)
    (hdec : DecodeToken v2 key now1 (authHeader.drop 6) = (uid, none))
    (hget : GetToken query (authHeader.drop 6) = Except.ok record)
    (hbad : record.UID ≠ uid ∨ record.EndDate ≤ now2) :
    AuthMiddleware v2 key query now1 now2 authHeader =
      ([AuthCall.DecodeToken (authHeader.drop 6), AuthCall.GetToken (authHeader.drop 6)],
        AuthResult.rejected
          { contentType := "application/json", status := 401,
            body := { Body := ["Invalid or expired token"] } }) := by
  have hbad' : record.UID ≠ uid ∨ ¬ now2 < record.EndDate := by
    rcases hbad with h | h
    · exact Or.inl h
    · exact Or.inr (not_lt.mpr h)
  exact AuthMiddleware_of_bad_record v2 key query now1 now2 authHeader hlen uid record hdec hget
    hbad'

/-- C21, for the header `Token abc` at the very time the record of `abc`
ends. -/
theorem record_mismatch_rejected_witness :
    6 ≤ (bytesOf "Token abc").length ∧
      DecodeToken sampleScheme sampleKey 2000 ((bytesOf "Token abc").drop 6) =
        ("u1".toList, none) ∧
      GetToken sampleQuery ((bytesOf "Token abc").drop 6) =
        Except.ok (sessionOf "1" "abc" 605800) ∧
      (sessionOf "1" "abc" 605800).EndDate ≤ 605800 ∧
      AuthMiddleware sampleScheme sampleKey sampleQuery 2000 605800 (bytesOf "Token abc") =
        ([AuthCall.DecodeToken ((bytesOf "Token abc").drop 6),
          AuthCall.GetToken ((bytesOf "Token abc").drop 6)],
          AuthResult.rejected
            { contentType := "application/json", status := 401,
              body := { Body := ["Invalid or expired token"] } }) :=
  ⟨by decide, by decide, rfl, by decide,
    record_mismatch_rejected sampleScheme sampleKey sampleQuery 2000 605800
      (bytesOf "Token abc") "u1".toList (sessionOf "1" "abc" 605800) (by decide) (by decide)
      rfl (Or.inr (by decide))⟩

/-- C22, on the code: for the header `abc` the middleware neither calls the
next handler nor answers 401, it panics.  For a header of at least 6 bytes
the four outcomes are as described: 401 "Invalid or expired token" when
decoding fails, 401 "Failed to validate token" when the lookup fails, 401
"Invalid or expired token" for a record of another user or one not ending
after now, and otherwise the next handler with the decoded user id. -/
theorem short_header_is_no_401 :
    AuthMiddleware sampleScheme sampleKey sampleQuery 2000 2000 (bytesOf "abc") =
        ([], AuthResult.panic) ∧
      ∀ (v2 : PasetoV2) (key : List Byte) (query : ByteString → TokenQuery)
        (now1 now2 : Time) (authHeader : ByteString), 6 ≤ authHeader.length →
        (∀ (uid : GoString) (e : DecodeErr),
          DecodeToken v2 key now1 (authHeader.drop 6) = (uid, some e) →
          (AuthMiddleware v2 key query now1 now2 authHeader).2 =
            AuthResult.rejected (HandleError "Invalid or expired token" 401)) ∧
        (∀ (uid : GoString) (e : GetTokenErr),
          DecodeToken v2 key now1 (authHeader.drop 6) = (uid, none) →
          GetToken query (authHeader.drop 6) = Except.error e →
          (AuthMiddleware v2 key query now1 now2 authHeader).2 =
            AuthResult.rejected (HandleError "Failed to validate token" 401)) ∧
        (∀ (uid : GoString) (record : UserAuthToken),
          DecodeToken v2 key now1 (authHeader.drop 6) = (uid, none) →
          GetToken query (authHeader.drop 6) = Except.ok record →
          (record.UID ≠ uid ∨ ¬ now2 < record.EndDate) →
          (AuthMiddleware v2 key query now1 now2 authHeader).2 =
            AuthResult.rejected (HandleError "Invalid or expired token" 401)) ∧
        (∀ (uid : GoString) (record : UserAuthToken),
          DecodeToken v2 key now1 (authHeader.drop 6) = (uid, none) →
          GetToken query (authHeader.drop 6) = Except.ok record →
          record.UID = uid → now2 < record.EndDate →
          (AuthMiddleware v2 key query now1 now2 authHeader).2 = AuthResult.next uid) := by
  refine ⟨by decide, ?_⟩
  intro v2 key query now1 now2 authHeader hlen
  refine ⟨?_, ?_, ?_, ?_⟩
  · intro uid e hdec
    rw [AuthMiddleware_of_decode_error v2 key query now1 now2 authHeader hlen uid e hdec]
    rfl
  · intro uid e hdec hget
    rw [AuthMiddleware_of_get_error v2 key query now1 now2 authHeader hlen uid e hdec hget]
    rfl
  · intro uid record hdec hget hbad
    rw [AuthMiddleware_of_bad_record v2 key query now1 now2 authHeader hlen uid record hdec hget
      hbad]
    rfl
  · intro uid record hdec hget huid hend
    rw [AuthMiddleware_of_good_record v2 key query now1 now2 authHeader hlen uid record hdec hget
      huid hend]

/-! ### Login and logout -/

/-- What `LoginUserHandler` does once the body is decoded and valid, the user
found and the password accepted: it follows the outcome of
`FindTokenByUID`. -/
theorem LoginUserHandler_found {σ : Type} (db : UserDb σ)
    (IDKey : List Byte → List Byte → Nat → Nat → Nat → Nat → List Byte)
    (v2 : PasetoV2) (key : List Byte) (now : Time) (rand : Except RandError (List Byte))
    (validate : LoginPayload → Option String) (s : σ) (loginPayload : LoginPayload)
    (user : UserTableDB)
    (hval : validate loginPayload = none)
    (huser : GetUserForAuth db s loginPayload.Email [] = Except.ok user)
    (hpw : ComparePasswords IDKey loginPayload.Password user.PasswordHash
      user.PasswordSalt = true) :
    LoginUserHandler db IDKey v2 key now rand validate s (some loginPayload) =
      match FindTokenByUID db s user.ID with
      | .ok tokenDB => (s, HandlerResponse.user StatusOK (userResponse user tokenDB.Token))
      | .error _ =>
        (s, HandlerResponse.error
          (HandleError "Failed to retrieve authentication token" StatusUnprocessableEntity)) := by
  simp only [LoginUserHandler, hval, huser, hpw, isNewNoResult]
  cases FindTokenByUID db s user.ID <;> simp

/-- C23, on the code: `alice1` logs in with the right password while the
session table holds no record for her; the handler answers 422 "Failed to
retrieve authentication token" and leaves the table empty.  The same happens
in every database for every user with correct credentials whose by-user
lookup returns the no-result error: nothing is minted or inserted. -/
theorem login_without_session_fails :
    LoginUserHandler memUsers sampleKDF sampleScheme sampleKey 2000
        (Except.error RandError.readFailed) (fun _ => none) noSession
        (some { Email := "a@b.co".toList, Password := "hunter2".toList }) =
        (noSession,
          HandlerResponse.error
            { contentType := "application/json", status := 422,
              body := { Body := ["Failed to retrieve authentication token"] } }) ∧
      FindTokenByUID memUsers noSession "u1".toList = Except.error RepoErr.ErrNoResult ∧
      ∀ (σ : Type) (db : UserDb σ)
        (IDKey : List Byte → List Byte → Nat → Nat → Nat → Nat → List Byte)
        (v2 : PasetoV2) (key : List Byte) (now : Time) (rand : Except RandError (List Byte))
        (validate : LoginPayload → Option String) (s : σ) (loginPayload : LoginPayload)
        (user : UserTableDB),
        validate loginPayload = none →
        GetUserForAuth db s loginPayload.Email [] = Except.ok user →
        ComparePasswords IDKey loginPayload.Password user.PasswordHash
          user.PasswordSalt = true →
        FindTokenByUID db s user.ID = Except.error RepoErr.ErrNoResult →
        LoginUserHandler db IDKey v2 key now rand validate s (some loginPayload) =
          (s, HandlerResponse.error
            (HandleError "Failed to retrieve authentication token" 422)) := by
  refine ⟨by decide, rfl, ?_⟩
  intro σ db IDKey v2 key now rand validate s loginPayload user hval huser hpw hfind
  rw [LoginUserHandler_found db IDKey v2 key now rand validate s loginPayload user hval huser hpw,
    hfind]
  rfl

theorem AuthMiddleware_rejects (v2 : PasetoV2) (key : List Byte)
    (query : ByteString → TokenQuery) (now1 now2 : Time) (authHeader : ByteString)
    (hlen : 6 ≤ authHeader.length)
    (h : ∀ record : UserAuthToken, GetToken query (authHeader.drop 6) = Except.ok record →
      ¬ now2 < record.EndDate) :
    ∃ response : ErrorResponse,
      (AuthMiddleware v2 key query now1 now2 authHeader).2 = AuthResult.rejected response ∧
        response.status = 401 := by
  cases hdec : DecodeToken v2 key now1 (authHeader.drop 6) with
  | mk uid err =>
    cases err with
    | some e =>
      rw [AuthMiddleware_of_decode_error v2 key query now1 now2 authHeader hlen uid e hdec]
      exact ⟨_, rfl, rfl⟩
    | none =>
      cases hget : GetToken query (authHeader.drop 6) with
      | error e =>
        rw [AuthMiddleware_of_get_error v2 key query now1 now2 authHeader hlen uid e hdec hget]
        exact ⟨_, rfl, rfl⟩
      | ok record =>
        rw [AuthMiddleware_of_bad_record v2 key query now1 now2 authHeader hlen uid record hdec
          hget (Or.inr (h record hget))]
        exact ⟨_, rfl, rfl⟩

/-- C29: for a user with correct credentials whose by-user lookup returns a
session record, `LoginUserHandler` answers 200 with that record's token and
leaves the database as it was, whatever the record's expiration; and when
that record is the one the store returns for its token and its expiration is
not after the current time, the middleware answers 401 to a request that
presents the token. -/
theorem login_returns_stored_token {σ : Type} (db : UserDb σ)
    (IDKey : List Byte → List Byte → Nat → Nat → Nat → Nat → List Byte)
    (v2 : PasetoV2) (key : List Byte) (now : Time) (rand : Except RandError (List Byte))
    (validate : LoginPayload → Option String) (s : σ) (loginPayload : LoginPayload)
    (user : UserTableDB) (record : UserAuthToken)
    (hval : validate loginPayload = none)
    (huser : GetUserForAuth db s loginPayload.Email [] = Except.ok user)
    (hpw : ComparePasswords IDKey loginPayload.Password user.PasswordHash
      user.PasswordSalt = true)
    (hfind : FindTokenByUID db s user.ID = Except.ok record) :
    LoginUserHandler db IDKey v2 key now rand validate s (some loginPayload) =
        (s, HandlerResponse.user 200 (userResponse user record.Token)) ∧
      (userResponse user record.Token).Token = record.Token ∧
      ∀ (now1 now2 : Time) (authHeader : ByteString),
        6 ≤ authHeader.length → authHeader.drop 6 = record.Token →
        db.selectToken s record.Token = TokenQuery.row record → record.EndDate ≤ now2 →
        ∃ response : ErrorResponse,
          (AuthMiddleware v2 key (db.selectToken s) now1 now2 authHeader).2 =
              AuthResult.rejected response ∧ response.status = 401 := by
  refine ⟨?_, rfl, ?_⟩
  · rw [LoginUserHandler_found db IDKey v2 key now rand validate s loginPayload user hval huser
      hpw, hfind]
    rfl
  · intro now1 now2 authHeader hlen hdrop hrow hend
    apply AuthMiddleware_rejects v2 key (db.selectToken s) now1 now2 authHeader hlen
    intro record' hget
    rw [hdrop] at hget
    unfold GetToken at hget
    split at hget
    · cases hget
    · rw [hrow] at hget
      simp only [Except.ok.injEq] at hget
      rw [← hget]
      exact not_lt.mpr hend

/-- C29, for `alice1` whose only session record, for the token `abc`, ended
at time 1500: at time 2000 login answers 200 with `abc`, and the middleware
answers 401 to `Token abc`. -/
theorem login_returns_stored_token_witness :
    GetUserForAuth memUsers pastSession "a@b.co".toList [] = Except.ok sampleUser ∧
      ComparePasswords sampleKDF "hunter2".toList sampleUser.PasswordHash
        sampleUser.PasswordSalt = true ∧
      FindTokenByUID memUsers pastSession sampleUser.ID =
        Except.ok (sessionOf "1" "abc" 1500) ∧
      LoginUserHandler memUsers sampleKDF sampleScheme sampleKey 2000
          (Except.error RandError.readFailed) (fun _ => none) pastSession
          (some { Email := "a@b.co".toList, Password := "hunter2".toList }) =
        (pastSession, HandlerResponse.user 200 (userResponse sampleUser (bytesOf "abc"))) ∧
      ∃ response : ErrorResponse,
        (AuthMiddleware sampleScheme sampleKey (memUsers.selectToken pastSession) 2000 2000
            (bytesOf "Token abc")).2 = AuthResult.rejected response ∧
          response.status = 401 :=
  ⟨rfl, by decide, rfl,
    (login_returns_stored_token memUsers sampleKDF sampleScheme sampleKey 2000
      (Except.error RandError.readFailed) (fun _ => none) pastSession
      { Email := "a@b.co".toList, Password := "hunter2".toList } sampleUser
      (sessionOf "1" "abc" 1500) rfl rfl (by decide) rfl).1,
    (login_returns_stored_token memUsers sampleKDF sampleScheme sampleKey 2000
      (Except.error RandError.readFailed) (fun _ => none) pastSession
      { Email := "a@b.co".toList, Password := "hunter2".toList } sampleUser
      (sessionOf "1" "abc" 1500) rfl rfl (by decide) rfl).2.2 2000 2000 (bytesOf "Token abc")
      (by decide) (by decide) (by decide) (by decide)⟩

/-- C24, as the code has it: `u1` has two session records, for `xyz` and
`abc`.  The request `Token abc` is admitted; `LogoutHandler` for it answers
200 after deleting the record the by-user lookup returns, the one of `xyz`;
the request `Token abc` is admitted again afterwards. -/
theorem logout_deletes_another_session :
    AuthMiddleware sampleScheme sampleKey (memUsers.selectToken twoSessions) 2000 2000
        (bytesOf "Token abc") =
        ([AuthCall.DecodeToken (bytesOf "abc"), AuthCall.GetToken (bytesOf "abc")],
          AuthResult.next "u1".toList) ∧
      LogoutHandler memUsers twoSessions "u1".toList =
        ({ users := [sampleUser], tokens := [sessionOf "2" "abc" 605800],
           subscriptions := [], clock := 2000 }, HandlerResponse.status 200) ∧
      AuthMiddleware sampleScheme sampleKey
        (memUsers.selectToken (LogoutHandler memUsers twoSessions "u1".toList).1) 3000 3000
        (bytesOf "Token abc") =
        ([AuthCall.DecodeToken (bytesOf "abc"), AuthCall.GetToken (bytesOf "abc")],
          AuthResult.next "u1".toList) := by
  decide

theorem find?_filter_ne (tokens : List UserAuthToken) (T : ByteString) :
    (tokens.filter fun r => decide (r.Token ≠ T)).find? (fun r => decide (r.Token = T)) =
      none := by
  rw [List.find?_eq_none]
  intro r hr
  have := (List.mem_filter.mp hr).2
  simpa using this

theorem memUsers_DeleteToken (s s' : MemUsers) (T : ByteString)
    (h : DeleteToken memUsers s T = (s', none)) :
    s' = { s with tokens := s.tokens.filter fun r => decide (r.Token ≠ T) } := by
  unfold DeleteToken at h
  by_cases hempty : T = []
  · rw [if_pos hempty] at h
    simp at h
  · rw [if_neg hempty] at h
    simp only [memUsers] at h
    by_cases hcount : List.countP (fun r => decide (r.Token = T)) s.tokens = 0
    · rw [if_pos hcount] at h
      simp at h
    · rw [if_neg hcount] at h
      simp only [Prod.mk.injEq, and_true] at h
      exact h.symm

/-- C24 (amended): in every state of the session table, when the by-user
lookup for the user of the request returns the record of the token `T` and
`LogoutHandler` answers 200, the table holds no record of `T` afterwards and
the middleware answers 401 to every request that presents `T` (a header whose
part from byte 6 on is `T`). -/
theorem logout_revokes (s s' : MemUsers) (uid : GoString) (T : ByteString)
    (record : UserAuthToken)
    (hfind : FindTokenByUID memUsers s uid = Except.ok record) (hT : record.Token = T)
    (hout : LogoutHandler memUsers s uid = (s', HandlerResponse.status StatusOK)) :
    memUsers.selectToken s' T = TokenQuery.noRow ∧
      ∀ (v2 : PasetoV2) (key : List Byte) (now1 now2 : Time) (authHeader : ByteString),
        6 ≤ authHeader.length → authHeader.drop 6 = T →
        ∃ response : ErrorResponse,
          (AuthMiddleware v2 key (memUsers.selectToken s') now1 now2 authHeader).2 =
              AuthResult.rejected response ∧ response.status = 401 := by
  have hdel : DeleteToken memUsers s T = (s', none) := by
    simp only [LogoutHandler, hfind, hT] at hout
    cases hd : DeleteToken memUsers s T with
    | mk s1 err =>
      rw [hd] at hout
      cases err with
      | some e => simp at hout
      | none =>
        simp only [Prod.mk.injEq, and_true] at hout
        rw [hout]
  have hsel : memUsers.selectToken s' T = TokenQuery.noRow := by
    rw [memUsers_DeleteToken s s' T hdel]
    simp only [memUsers, find?_filter_ne]
  refine ⟨hsel, ?_⟩
  intro v2 key now1 now2 authHeader hlen hdrop
  apply AuthMiddleware_rejects v2 key (memUsers.selectToken s') now1 now2 authHeader hlen
  intro record' hget
  rw [hdrop] at hget
  unfold GetToken at hget
  split at hget
  · cases hget
  · rw [hsel] at hget
    cases hget

/-- C24 (amended), for `alice1` with her one session record, for the token
`abc`: after the logout the request `Token abc` is answered with 401. -/
theorem logout_revokes_witness :
    FindTokenByUID memUsers oneSession "u1".toList = Except.ok (sessionOf "1" "abc" 605800) ∧
      LogoutHandler memUsers oneSession "u1".toList =
        (noSession, HandlerResponse.status StatusOK) ∧
      memUsers.selectToken noSession (bytesOf "abc") = TokenQuery.noRow ∧
      ∃ response : ErrorResponse,
        (AuthMiddleware sampleScheme sampleKey (memUsers.selectToken noSession) 3000 3000
            (bytesOf "Token abc")).2 = AuthResult.rejected response ∧
          response.status = 401 :=
  ⟨rfl, by decide,
    (logout_revokes oneSession noSession "u1".toList (bytesOf "abc")
      (sessionOf "1" "abc" 605800) rfl (by decide) (by decide)).1,
    (logout_revokes oneSession noSession "u1".toList (bytesOf "abc")
      (sessionOf "1" "abc" 605800) rfl (by decide) (by decide)).2 sampleScheme sampleKey 3000
      3000 (bytesOf "Token abc") (by decide) (by decide)⟩

/-! ### The password verifier stays inside -/

theorem userResponse_samePublic (u u' : UserTableDB) (token : ByteString)
    (h : samePublic u u') : userResponse u token = userResponse u' token := by
  obtain ⟨h1, h2, h3, h4, h5, h6, h7⟩ := h
  simp only [userResponse, h1, h2, h3, h4, h5, h6, h7]

theorem applyUpdate_ID (user : UserTableDB) (p : UpdatePayload) :
    (applyUpdate user p).ID = user.ID := by
  unfold applyUpdate
  simp only
  split_ifs <;> rfl

theorem applyUpdate_samePublic (u u' : UserTableDB) (p : UpdatePayload)
    (h : samePublic u u') : samePublic (applyUpdate u p) (applyUpdate u' p) := by
  obtain ⟨h1, h2, h3, h4, h5, h6, h7⟩ := h
  unfold applyUpdate samePublic
  simp only
  split_ifs <;> simp [h1, h2, h3, h4, h5, h6, h7]

theorem afterUpdateUser_response {σ : Type} (db : UserDb σ) (v2 : PasetoV2) (key : List Byte)
    (now : Time) (rand : Except RandError (List Byte)) (user user' : UserTableDB)
    (s1 s1' : σ) (e : Option RepoErr) (hsame : samePublic user user')
    (hfind : FindTokenByUID db s1 user.ID = FindTokenByUID db s1' user'.ID) :
    (afterUpdateUser db v2 key now rand user (s1, e)).2 =
      (afterUpdateUser db v2 key now rand user' (s1', e)).2 := by
  cases e with
  | some err => rfl
  | none =>
    simp only [afterUpdateUser, isNewNoResult, hfind]
    cases FindTokenByUID db s1' user'.ID with
    | error err => simp
    | ok tokenDB => simp [userResponse_samePublic user user' _ hsame]

/-- C25: the responses of the register, login, get-user, update-user and
profile handlers are the same for two runs in which the stored user records
differ at most in `PasswordHash` and `PasswordSalt` and every other answer of
the store is the same (for login: the password check gives the same result).
The response objects, `UserResponse` and `Profile`, have no field for the hash
or the salt. -/
theorem responses_ignore_verifier {σ : Type} (db : UserDb σ)
    (IDKey : List Byte → List Byte → Nat → Nat → Nat → Nat → List Byte)
    (v2 : PasetoV2) (key : List Byte) (now : Time) (s s' : σ) (u u' : UserTableDB) :
    (∀ (randSalt randSalt' randJti : Except RandError (List Byte))
        (validate : RequestUser → Option String) (body : RequestUser) (s1 s1' : σ),
      validate body = none →
      RegisterUser db IDKey randSalt now s body.Username body.Email body.Password =
        (s1, none) →
      RegisterUser db IDKey randSalt' now s' body.Username body.Email body.Password =
        (s1', none) →
      GetUserForAuth db s1 [] body.Username = Except.ok u →
      GetUserForAuth db s1' [] body.Username = Except.ok u' →
      samePublic u u' →
      (AddToken db s1 (GenerateToken v2 key now randJti u.ID) u.ID).2 =
        (AddToken db s1' (GenerateToken v2 key now randJti u'.ID) u'.ID).2 →
      (UserRegisterHandler db IDKey v2 key now randSalt randJti validate s (some body)).2 =
        (UserRegisterHandler db IDKey v2 key now randSalt' randJti validate s'
          (some body)).2) ∧
    (∀ (rand : Except RandError (List Byte)) (validate : LoginPayload → Option String)
        (loginPayload : LoginPayload),
      validate loginPayload = none →
      GetUserForAuth db s loginPayload.Email [] = Except.ok u →
      GetUserForAuth db s' loginPayload.Email [] = Except.ok u' →
      samePublic u u' →
      ComparePasswords IDKey loginPayload.Password u.PasswordHash u.PasswordSalt =
        ComparePasswords IDKey loginPayload.Password u'.PasswordHash u'.PasswordSalt →
      FindTokenByUID db s u.ID = FindTokenByUID db s' u'.ID →
      (LoginUserHandler db IDKey v2 key now rand validate s (some loginPayload)).2 =
        (LoginUserHandler db IDKey v2 key now rand validate s' (some loginPayload)).2) ∧
    (∀ uid : GoString,
      db.selectUserById s uid = Except.ok u → db.selectUserById s' uid = Except.ok u' →
      samePublic u u' →
      FindTokenByUID db s uid = FindTokenByUID db s' uid →
      (GetUserHandler db s uid).2 = (GetUserHandler db s' uid).2) ∧
    (∀ (rand : Except RandError (List Byte)) (updatePayload : UpdatePayload) (uid : GoString)
        (s1 s1' : σ) (e : Option RepoErr),
      GetUserForUpdate db s uid = Except.ok u → GetUserForUpdate db s' uid = Except.ok u' →
      samePublic u u' →
      UpdateUser db s (applyUpdate u updatePayload) now = (s1, e) →
      UpdateUser db s' (applyUpdate u' updatePayload) now = (s1', e) →
      FindTokenByUID db s1 u.ID = FindTokenByUID db s1' u'.ID →
      (UpdateUserHandler db v2 key now rand s (some updatePayload) uid).2 =
        (UpdateUserHandler db v2 key now rand s' (some updatePayload) uid).2) ∧
    (∀ (userName : GoString) (followerUID : Option GoString),
      GetUserForAuth db s [] userName = Except.ok u →
      GetUserForAuth db s' [] userName = Except.ok u' →
      samePublic u u' →
      (∀ uid : GoString, followerUID = some uid →
        CheckFollow db s uid u.ID = CheckFollow db s' uid u'.ID) →
      (CheckProfileHandler db s userName followerUID).2 =
        (CheckProfileHandler db s' userName followerUID).2) := by
  refine ⟨?_, ?_, ?_, ?_, ?_⟩
  · intro randSalt randSalt' randJti validate body s1 s1' hval hreg hreg' hget hget' hsame hadd
    have hid : u.ID = u'.ID := hsame.1
    simp only [UserRegisterHandler, hval, hreg, hreg', hget, hget']
    rw [hid] at hadd ⊢
    cases h1 : AddToken db s1 (GenerateToken v2 key now randJti u'.ID) u'.ID with
    | mk a e1 =>
      cases h2 : AddToken db s1' (GenerateToken v2 key now randJti u'.ID) u'.ID with
      | mk a' e2 =>
        rw [h1, h2] at hadd
        simp only at hadd
        subst hadd
        cases e1 with
        | some err => rfl
        | none =>
          simp only
          rw [userResponse_samePublic u u' _ hsame]
  · intro rand validate loginPayload hval hget hget' hsame hpw hfind
    cases hc : ComparePasswords IDKey loginPayload.Password u'.PasswordHash u'.PasswordSalt with
    | false =>
      rw [hc] at hpw
      simp only [LoginUserHandler, hval, hget, hget', hpw, hc, if_true]
    | true =>
      rw [hc] at hpw
      rw [LoginUserHandler_found db IDKey v2 key now rand validate s loginPayload u hval hget hpw,
        LoginUserHandler_found db IDKey v2 key now rand validate s' loginPayload u' hval hget'
          hc, hfind]
      cases FindTokenByUID db s' u'.ID with
      | error err => rfl
      | ok tokenDB =>
        simp only
        rw [userResponse_samePublic u u' _ hsame]
  · intro uid hsel hsel' hsame hfind
    obtain ⟨h1, h2, h3, h4, h5, h6, h7⟩ := hsame
    by_cases huid : uid = []
    · simp [GetUserHandler, GetUserForApi, huid]
    · simp only [GetUserHandler, GetUserForApi, if_neg huid, hsel, hsel', hfind, h1, h2, h3, h4,
        h5, h6, h7]
      cases FindTokenByUID db s' uid <;> rfl
  · intro rand updatePayload uid s1 s1' e hget hget' hsame hupd hupd' hfind
    simp only [UpdateUserHandler, hget, hget', hupd, hupd']
    apply afterUpdateUser_response db v2 key now rand _ _ s1 s1' e
      (applyUpdate_samePublic u u' updatePayload hsame)
    rw [applyUpdate_ID, applyUpdate_ID]
    exact hfind
  · intro userName followerUID hget hget' hsame hfollow
    obtain ⟨h1, h2, h3, h4, h5, h6, h7⟩ := hsame
    by_cases hname : userName = []
    · simp [CheckProfileHandler, hname]
    · simp only [CheckProfileHandler, if_neg hname, hget, hget']
      cases followerUID with
      | none => simp only [h1, h2, h4, h5, h6, h7]
      | some uid =>
        have hf := hfollow uid rfl
        rw [h1] at hf
        simp only [hf, h1, h2, h4, h5, h6, h7]

/-- C25, for the login of `alice1` against two databases that differ only in
her stored hash and salt: both runs answer 200 with the same body. -/
theorem responses_ignore_verifier_witness :
    sampleUser.PasswordHash ≠ sampleUserRehashed.PasswordHash ∧
      LoginUserHandler memUsers sampleKDF sampleScheme sampleKey 2000
          (Except.error RandError.readFailed) (fun _ => none) oneSession
          (some { Email := "a@b.co".toList, Password := "hunter2".toList }) =
        (oneSession, HandlerResponse.user 200 (userResponse sampleUser (bytesOf "abc"))) ∧
      (LoginUserHandler memUsers sampleKDF sampleScheme sampleKey 2000
          (Except.error RandError.readFailed) (fun _ => none) oneSession
          (some { Email := "a@b.co".toList, Password := "hunter2".toList })).2 =
        (LoginUserHandler memUsers sampleKDF sampleScheme sampleKey 2000
          (Except.error RandError.readFailed) (fun _ => none) oneSessionRehashed
          (some { Email := "a@b.co".toList, Password := "hunter2".toList })).2 :=
  ⟨by decide, by decide,
    (responses_ignore_verifier memUsers sampleKDF sampleScheme sampleKey 2000 oneSession
      oneSessionRehashed sampleUser sampleUserRehashed).2.1
      (Except.error RandError.readFailed) (fun _ => none)
      { Email := "a@b.co".toList, Password := "hunter2".toList } rfl rfl rfl
      ⟨rfl, rfl, rfl, rfl, rfl, rfl, rfl⟩ (by decide) rfl⟩

/-! ### The index the slug loop stops at -/

/-- C26: when the existence query answers membership in a finite set `E`
without error, the loop of `CreateArticleHandler`, entered with index 1,
leaves with `Slugify(T, k)` for the least `k ≥ 1` whose slug is not in `E`
(every index from 1 below `k` has its slug in `E`); each iteration either
leaves with the current index, or goes on with the index increased by exactly
one after an answer "exists"; and the handler inserts the article under the
slug the loop leaves with. -/
theorem least_free_index {σ : Type} (tbl : Char → Char) (db : ArticleDb σ) (title : GoString)
    (E : Finset GoString)
    (hprobe : ∀ (s : σ) (slug : GoString), (db.selectSlug s slug).2 =
      if slug ∈ E then Except.ok slug else Except.error PgxErr.ErrNoRows)
    (fuel : Nat) (hfuel : E.card + 1 ≤ fuel) (s : σ) :
    (∃ (s' : σ) (k : Int),
      slugLoop tbl db title fuel s 1 (Slugify tbl title 1) =
          some (s', k, Slugify tbl title k) ∧
        1 ≤ k ∧ Slugify tbl title k ∉ E ∧
        (∀ i : Int, 1 ≤ i → i < k → Slugify tbl title i ∈ E) ∧
        ∀ (username : GoString) (req : CreateArticleRequest) (now : Time),
          req.Title = title →
          (CreateArticleHandler tbl db fuel s (some username) (some req) now).map Prod.fst =
            some (db.insertArticle s' (newArticle (Slugify tbl title k) req username)).1) ∧
      ∀ (n : Nat) (s0 : σ) (index : Int) (slug : GoString),
        slugLoop tbl db title (n + 1) s0 index slug =
          if (IsSlugExists db s0 slug).2 = true then
            slugLoop tbl db title n (IsSlugExists db s0 slug).1 (index + 1)
              (Slugify tbl title (index + 1))
          else some ((IsSlugExists db s0 slug).1, index, slug) := by
  refine ⟨?_, fun n s0 index slug => rfl⟩
  obtain ⟨s', k, hk, h1, -, h3, h4⟩ :=
    slugLoop_finds tbl db title E.card E 1 (le_refl _) (by decide)
      (fun s i _ => IsSlugExists_of_select db E hprobe s _) fuel hfuel s
  refine ⟨s', k, hk, h1, h3, h4, ?_⟩
  intro username req now hreq
  subst hreq
  rw [CreateArticleHandler_run tbl db fuel s username req now s' k _ hk]
  rfl

/-- C26, at the title `a` with the slugs `a-1` and `a-2` taken. -/
theorem least_free_index_witness :
    (∀ (s : Unit) (slug : GoString),
        ((setDb {"a-1".toList, "a-2".toList}).selectSlug s slug).2 =
          if slug ∈ ({"a-1".toList, "a-2".toList} : Finset GoString) then Except.ok slug
          else Except.error PgxErr.ErrNoRows) ∧
      ({"a-1".toList, "a-2".toList} : Finset GoString).card + 1 ≤ 3 ∧
      slugLoop latin1Table (setDb {"a-1".toList, "a-2".toList}) "a".toList 3 () 1
          (Slugify latin1Table "a".toList 1) = some ((), 3, "a-3".toList) ∧
      ∃ (s' : Unit) (k : Int),
        slugLoop latin1Table (setDb {"a-1".toList, "a-2".toList}) "a".toList 3 () 1
            (Slugify latin1Table "a".toList 1) = some (s', k, Slugify latin1Table "a".toList k) ∧
          1 ≤ k ∧
          Slugify latin1Table "a".toList k ∉ ({"a-1".toList, "a-2".toList} : Finset GoString) ∧
          (∀ i : Int, 1 ≤ i → i < k →
            Slugify latin1Table "a".toList i ∈
              ({"a-1".toList, "a-2".toList} : Finset GoString)) ∧
          ∀ (username : GoString) (req : CreateArticleRequest) (now : Time),
            req.Title = "a".toList →
            (CreateArticleHandler latin1Table (setDb {"a-1".toList, "a-2".toList}) 3 ()
                (some username) (some req) now).map Prod.fst =
              some ((setDb {"a-1".toList, "a-2".toList}).insertArticle s'
                (newArticle (Slugify latin1Table "a".toList k) req username)).1 :=
  ⟨fun _ _ => rfl, by decide, by decide,
    (least_free_index latin1Table (setDb {"a-1".toList, "a-2".toList}) "a".toList
      {"a-1".toList, "a-2".toList} (fun _ _ => rfl) 3 (by decide) ()).1⟩

/-- C27: `IsSlugExists` answers `false` exactly when the query reports "no
rows"; it answers `true` when a row is found and when the query fails with any
other error.  Against a store whose existence query fails on every call with
an error other than "no rows", the loop of `CreateArticleHandler` leaves
within no number of iterations, from whatever index, and the handler never
answers. -/
theorem probe_error_means_exists {σ : Type} (tbl : Char → Char) (db : ArticleDb σ) :
    (∀ (s : σ) (slug : GoString),
      ((IsSlugExists db s slug).2 = false ↔
        (db.selectSlug s slug).2 = Except.error PgxErr.ErrNoRows)) ∧
    (∀ (s : σ) (slug found : GoString),
      (db.selectSlug s slug).2 = Except.ok found → (IsSlugExists db s slug).2 = true) ∧
    (∀ (s : σ) (slug : GoString) (err : PgxErr),
      (db.selectSlug s slug).2 = Except.error err → err ≠ PgxErr.ErrNoRows →
      (IsSlugExists db s slug).2 = true) ∧
    ((∀ (s : σ) (slug : GoString), ∃ err : PgxErr, err ≠ PgxErr.ErrNoRows ∧
        (db.selectSlug s slug).2 = Except.error err) →
      (∀ (title : GoString) (fuel : Nat) (s : σ) (index : Int) (slug : GoString),
        slugLoop tbl db title fuel s index slug = none) ∧
      ∀ (fuel : Nat) (s : σ) (username : GoString) (req : CreateArticleRequest) (now : Time),
        CreateArticleHandler tbl db fuel s (some username) (some req) now = none) := by
  have hexists : ∀ (s : σ) (slug : GoString),
      (IsSlugExists db s slug).2 =
        match (db.selectSlug s slug).2 with
        | .error err => !(decide (err = PgxErr.ErrNoRows))
        | .ok _ => true := by
    intro s slug
    unfold IsSlugExists
    split <;> (rename_i h; rw [h])
  refine ⟨?_, ?_, ?_, ?_⟩
  · intro s slug
    rw [hexists]
    cases h : (db.selectSlug s slug).2 with
    | error err => cases err <;> simp
    | ok found => simp
  · intro s slug found h
    rw [hexists, h]
  · intro s slug err h hne
    rw [hexists, h]
    simp [hne]
  · intro hfail
    have htrue : ∀ (s : σ) (slug : GoString), (IsSlugExists db s slug).2 = true := by
      intro s slug
      obtain ⟨err, hne, herr⟩ := hfail s slug
      rw [hexists, herr]
      simp [hne]
    have hloop : ∀ (title : GoString) (fuel : Nat) (s : σ) (index : Int) (slug : GoString),
        slugLoop tbl db title fuel s index slug = none := by
      intro title fuel
      induction fuel with
      | zero => intro s index slug; rfl
      | succ n ih =>
        intro s index slug
        rw [slugLoop_succ, if_pos (htrue s slug)]
        exact ih _ _ _
    refine ⟨hloop, ?_⟩
    intro fuel s username req now
    simp only [CreateArticleHandler, hloop]

/-- C27, against the store whose existence query always fails: a thousand
iterations are not enough for the title `a`. -/
theorem probe_error_means_exists_witness :
    (∀ (s : Unit) (slug : GoString), ∃ err : PgxErr, err ≠ PgxErr.ErrNoRows ∧
        (failingDb.selectSlug s slug).2 = Except.error err) ∧
      slugLoop latin1Table failingDb "a".toList 1000 () 1 (Slugify latin1Table "a".toList 1) =
        none :=
  ⟨fun _ _ => ⟨PgxErr.Other, by decide, rfl⟩,
    ((probe_error_means_exists latin1Table failingDb).2.2.2
      (fun _ _ => ⟨PgxErr.Other, by decide, rfl⟩)).1 "a".toList 1000 () 1 _⟩

/-! ### What `UpdateUserHandler` writes -/

/-- C28: when the body is decoded and the stored user found,
`UpdateUserHandler` calls `UpdateUser`, and through it the `UPDATE` statement,
with a record whose email, username, bio and image are the request's value
where that is non-empty and the stored value otherwise, and whose id, password
hash, password salt and creation time are the stored ones. -/
theorem update_keeps_the_rest {σ : Type} (db : UserDb σ) (v2 : PasetoV2) (key : List Byte)
    (now : Time) (rand : Except RandError (List Byte)) (s : σ) (updatePayload : UpdatePayload)
    (uid : GoString) (stored : UserTableDB) :
    (GetUserForUpdate db s uid = Except.ok stored →
      UpdateUserHandler db v2 key now rand s (some updatePayload) uid =
        afterUpdateUser db v2 key now rand (applyUpdate stored updatePayload)
          (UpdateUser db s (applyUpdate stored updatePayload) now)) ∧
      (UpdateUser db s (applyUpdate stored updatePayload) now).1 =
        (db.updateUser s (applyUpdate stored updatePayload) now).1 ∧
      (applyUpdate stored updatePayload).Email =
        (if updatePayload.Email ≠ [] then updatePayload.Email else stored.Email) ∧
      (applyUpdate stored updatePayload).Username =
        (if updatePayload.Username ≠ [] then updatePayload.Username else stored.Username) ∧
      (applyUpdate stored updatePayload).Bio =
        (if updatePayload.Bio ≠ [] then updatePayload.Bio else stored.Bio) ∧
      (applyUpdate stored updatePayload).Image =
        (if updatePayload.Image ≠ [] then updatePayload.Image else stored.Image) ∧
      (applyUpdate stored updatePayload).ID = stored.ID ∧
      (applyUpdate stored updatePayload).PasswordHash = stored.PasswordHash ∧
      (applyUpdate stored updatePayload).PasswordSalt = stored.PasswordSalt ∧
      (applyUpdate stored updatePayload).CreatedAt = stored.CreatedAt := by
  refine ⟨?_, ?_, ?_, ?_, ?_, ?_, ?_, ?_, ?_, ?_⟩
  · intro hget
    simp only [UpdateUserHandler, hget]
  · unfold UpdateUser
    split
    · rename_i h; rw [h]
    · rename_i h; rw [h]; split <;> rfl
  all_goals
    unfold applyUpdate
    simp only
    split_ifs <;> rfl

end Conduit
